import Mathlib

/-!
Verification of the WebResearcher agent runtime.

This file embeds, in Lean, the control-plane fragments of the repository:
the structured-output parsers of the iterative agent and of the WebWeaver
Planner and Writer, the iterative agent loop of WebResearcherAgent.run,
the retrying LLM client call_server, the tool dispatchers, the Writer
retrieve-deduplication loop, the test-time-scaling synthesis step, and the
session/turn bookkeeping of the web UI.  External effects (the LLM, the
tools, the wall clock) are supplied as oracle streams; everything else is
translated directly from the Python source.
-/

namespace PyStr

/-- Whitespace class of a Python regex backslash-s and of str.strip. -/
def pyIsSpace (c : Char) : Bool :=
  c == ' ' || c == '\t' || c == '\n' || c == '\r' || c == '\x0b' || c == '\x0c'

/-- Strip whitespace from both ends, as Python str.strip(). -/
def pyStrip (s : List Char) : List Char :=
  ((s.dropWhile pyIsSpace).reverse.dropWhile pyIsSpace).reverse

/-- Strip on Lean strings. -/
def pyStripS (s : String) : String :=
  String.mk (pyStrip s.data)

/-- Whether pat is an initial segment of s (literal regex matching). -/
def leadsWith : List Char → List Char → Bool
  | [], _ => true
  | _ :: _, [] => false
  | p :: ps, c :: cs => (p == c) && leadsWith ps cs

/-- Split s at the first occurrence of pat: returns the text before the
occurrence and the text after it, or none when pat does not occur.  This is
the scanning step of a lazy regex body and of Python substring search. -/
def splitAtFirstOccur (pat : List Char) : List Char → Option (List Char × List Char)
  | [] => none
  | c :: cs =>
    if leadsWith pat (c :: cs) then some ([], (c :: cs).drop pat.length)
    else
      match splitAtFirstOccur pat cs with
      | some (pre, post) => some (c :: pre, post)
      | none => none

/-- Whether pat occurs as a substring of s (Python in operator). -/
def occursSub (pat s : List Char) : Bool :=
  (splitAtFirstOccur pat s).isSome

theorem splitAtFirstOccur_post_lt (pat : List Char) (hp : pat ≠ []) :
    ∀ s pre post, splitAtFirstOccur pat s = some (pre, post) → post.length < s.length := by
  intro s
  induction s with
  | nil => intro pre post h; simp [splitAtFirstOccur] at h
  | cons c cs ih =>
    intro pre post h
    by_cases hl : leadsWith pat (c :: cs) = true
    · simp [splitAtFirstOccur, hl] at h
      obtain ⟨-, hpost⟩ := h
      subst hpost
      have hlen : pat.length ≥ 1 := by
        cases pat with
        | nil => exact absurd rfl hp
        | cons a as => simp
      simp only [List.length_drop]
      have : 0 < (c :: cs).length := by simp
      exact Nat.sub_lt this hlen
    · simp [splitAtFirstOccur, hl] at h
      cases hrec : splitAtFirstOccur pat cs with
      | none => simp [hrec] at h
      | some pr =>
        obtain ⟨p1, p2⟩ := pr
        simp [hrec] at h
        obtain ⟨-, hpost⟩ := h
        subst hpost
        have := ih p1 p2 hrec
        simp only [List.length_cons]
        omega

theorem length_dropWhile_le_self (p : Char → Bool) (s : List Char) :
    (s.dropWhile p).length ≤ s.length := by
  induction s with
  | nil => simp [List.dropWhile]
  | cons c cs ih =>
    by_cases hpc : p c = true
    · simp only [List.dropWhile, hpc, List.length_cons]
      omega
    · simp [List.dropWhile, hpc]

/-- Attempt of the pattern caret-backslash-s-star-openT-lazy-body-closeT at a
line-start position of s: skip leading whitespace, require the literal open
tag, take the shortest body up to the close tag.  Returns the body and the
remaining text after the close tag. -/
def matchAtLineStart (openT closeT : List Char) (s : List Char) :
    Option (List Char × List Char) :=
  if openT.isEmpty || closeT.isEmpty then none
  else
    let ws := s.dropWhile pyIsSpace
    if leadsWith openT ws then splitAtFirstOccur closeT (ws.drop openT.length)
    else none

theorem matchAtLineStart_post_lt (openT closeT : List Char) :
    ∀ s body post, matchAtLineStart openT closeT s = some (body, post) →
      post.length < s.length := by
  intro s body post h
  unfold matchAtLineStart at h
  by_cases he : (openT.isEmpty || closeT.isEmpty) = true
  · simp [he] at h
  · simp only [he, if_false] at h
    by_cases hl : leadsWith openT (s.dropWhile pyIsSpace) = true
    · simp only [hl, if_true] at h
      have hc : closeT ≠ [] := by
        intro hcn
        subst hcn
        simp [List.isEmpty] at he
      have h1 := splitAtFirstOccur_post_lt closeT hc _ _ _ h
      have h2 : ((s.dropWhile pyIsSpace).drop openT.length).length ≤
          (s.dropWhile pyIsSpace).length := by
        simp only [List.length_drop]
        omega
      have h3 : (s.dropWhile pyIsSpace).length ≤ s.length :=
        length_dropWhile_le_self _ _
      omega
    · simp [hl] at h

/-- Fuelled scan of all non-overlapping matches of the MULTILINE DOTALL
pattern caret-backslash-s-star-openT-lazy-body-closeT, scanning left to
right as re.findall does.  atStart records whether the current position is
the start of the text or directly follows a newline.  The fuel only bounds
recursion depth; scanTagMatchesF_fuel_irrel shows any fuel above the text
length gives the same value, so the entry point below is exact. -/
def scanTagMatchesF (openT closeT : List Char) : Nat → List Char → Bool → List (List Char)
  | 0, _, _ => []
  | _ + 1, [], _ => []
  | fuel + 1, c :: cs, atStart =>
    if atStart then
      match matchAtLineStart openT closeT (c :: cs) with
      | some (body, post) => body :: scanTagMatchesF openT closeT fuel post false
      | none => scanTagMatchesF openT closeT fuel cs (c == '\n')
    else scanTagMatchesF openT closeT fuel cs (c == '\n')

theorem scanTagMatchesF_fuel_irrel (openT closeT : List Char) :
    ∀ fuel1 fuel2 s atStart, s.length < fuel1 → s.length < fuel2 →
      scanTagMatchesF openT closeT fuel1 s atStart
        = scanTagMatchesF openT closeT fuel2 s atStart := by
  intro fuel1
  induction fuel1 with
  | zero => intro fuel2 s atStart h1 h2; omega
  | succ f1 ih =>
    intro fuel2 s atStart h1 h2
    cases fuel2 with
    | zero => omega
    | succ f2 =>
      cases s with
      | nil => rfl
      | cons c cs =>
        simp only [scanTagMatchesF]
        simp only [List.length_cons] at h1 h2
        by_cases ha : atStart = true
        · subst ha
          simp only [if_true]
          cases hm : matchAtLineStart openT closeT (c :: cs) with
          | some bp =>
            obtain ⟨body, post⟩ := bp
            have hlt := matchAtLineStart_post_lt openT closeT _ _ _ hm
            simp only [List.length_cons] at hlt
            show body :: scanTagMatchesF openT closeT f1 post false
                = body :: scanTagMatchesF openT closeT f2 post false
            rw [ih f2 post false (by omega) (by omega)]
          | none =>
            show scanTagMatchesF openT closeT f1 cs (c == '\n')
                = scanTagMatchesF openT closeT f2 cs (c == '\n')
            rw [ih f2 cs (c == '\n') (by omega) (by omega)]
        · simp only [Bool.not_eq_true] at ha
          subst ha
          simp only [Bool.false_eq_true, if_false]
          rw [ih f2 cs (c == '\n') (by omega) (by omega)]

/-- All matches of the anchored pattern, with fuel chosen large enough to be
exact. -/
def scanTagMatches (openT closeT : List Char) (s : List Char) (atStart : Bool) :
    List (List Char) :=
  scanTagMatchesF openT closeT (s.length + 1) s atStart

/-- Attempt of the unanchored DOTALL pattern openT-lazy-body-closeT at the
current position: require the literal open tag here, take the shortest body
up to the close tag. -/
def matchHere (openT closeT : List Char) (s : List Char) :
    Option (List Char × List Char) :=
  if openT.isEmpty || closeT.isEmpty then none
  else if leadsWith openT s then splitAtFirstOccur closeT (s.drop openT.length)
  else none

theorem matchHere_post_lt (openT closeT : List Char) :
    ∀ s body post, matchHere openT closeT s = some (body, post) →
      post.length < s.length := by
  intro s body post h
  unfold matchHere at h
  by_cases he : (openT.isEmpty || closeT.isEmpty) = true
  · simp [he] at h
  · simp only [he, if_false] at h
    by_cases hl : leadsWith openT s = true
    · simp only [hl, if_true] at h
      have hc : closeT ≠ [] := by
        intro hcn; subst hcn; simp [List.isEmpty] at he
      have ho : openT ≠ [] := by
        intro hon; subst hon; simp [List.isEmpty] at he
      have h1 := splitAtFirstOccur_post_lt closeT hc _ _ _ h
      have ho1 : 1 ≤ openT.length := by
        cases openT with
        | nil => exact absurd rfl ho
        | cons a as => simp
      have hs : s ≠ [] := by
        intro hsn
        subst hsn
        cases openT with
        | nil => exact absurd rfl ho
        | cons a as => simp [leadsWith] at hl
      have hs1 : 1 ≤ s.length := by
        cases s with
        | nil => exact absurd rfl hs
        | cons a as => simp
      have h2 : (s.drop openT.length).length ≤ s.length - 1 := by
        simp only [List.length_drop]
        omega
      omega
    · simp [hl] at h

/-- Fuelled scan of all non-overlapping matches of the unanchored DOTALL
pattern openT-lazy-body-closeT, scanning left to right as re.findall does. -/
def scanAnywhereMatchesF (openT closeT : List Char) : Nat → List Char → List (List Char)
  | 0, _ => []
  | _ + 1, [] => []
  | fuel + 1, c :: cs =>
    match matchHere openT closeT (c :: cs) with
    | some (body, post) => body :: scanAnywhereMatchesF openT closeT fuel post
    | none => scanAnywhereMatchesF openT closeT fuel cs

theorem scanAnywhereMatchesF_fuel_irrel (openT closeT : List Char) :
    ∀ fuel1 fuel2 s, s.length < fuel1 → s.length < fuel2 →
      scanAnywhereMatchesF openT closeT fuel1 s
        = scanAnywhereMatchesF openT closeT fuel2 s := by
  intro fuel1
  induction fuel1 with
  | zero => intro fuel2 s h1 h2; omega
  | succ f1 ih =>
    intro fuel2 s h1 h2
    cases fuel2 with
    | zero => omega
    | succ f2 =>
      cases s with
      | nil => rfl
      | cons c cs =>
        simp only [scanAnywhereMatchesF]
        simp only [List.length_cons] at h1 h2
        cases hm : matchHere openT closeT (c :: cs) with
        | some bp =>
          obtain ⟨body, post⟩ := bp
          have hlt := matchHere_post_lt openT closeT _ _ _ hm
          simp only [List.length_cons] at hlt
          show body :: scanAnywhereMatchesF openT closeT f1 post
              = body :: scanAnywhereMatchesF openT closeT f2 post
          rw [ih f2 post (by omega) (by omega)]
        | none =>
          show scanAnywhereMatchesF openT closeT f1 cs
              = scanAnywhereMatchesF openT closeT f2 cs
          rw [ih f2 cs (by omega) (by omega)]

/-- All matches of the unanchored pattern, with fuel chosen large enough to
be exact. -/
def scanAnywhereMatches (openT closeT : List Char) (s : List Char) :
    List (List Char) :=
  scanAnywhereMatchesF openT closeT (s.length + 1) s

/-- The leftmost DOTALL match of openT-lazy-body-closeT, as re.search: the
first open tag occurrence, with the body up to the first close tag after
it. -/
def reSearchTag (openT closeT : List Char) (text : List Char) : Option (List Char) :=
  match splitAtFirstOccur openT text with
  | some (_, afterOpen) =>
    match splitAtFirstOccur closeT afterOpen with
    | some (body, _) => some body
    | none => none
  | none => none

end PyStr

namespace PyStr

/-- Open tag literal for a label. -/
def tagOpen (tag : String) : List Char :=
  '<' :: (tag.data ++ ['>'])

/-- Close tag literal for a label. -/
def tagClose (tag : String) : List Char :=
  '<' :: '/' :: (tag.data ++ ['>'])

end PyStr

open PyStr

namespace WebResearcherAgent

/-- Inner loop of extract_last_block in WebResearcherAgent.parse_output:
walk the reversed match list and return the first stripped non-empty body,
or the empty string. -/
def pickLastNonEmpty : List (List Char) → List Char
  | [] => []
  | m :: ms => if pyStrip m ≠ [] then pyStrip m else pickLastNonEmpty ms

/-- Embeds extract_last_block of WebResearcherAgent.parse_output: findall of
the MULTILINE DOTALL pattern caret-backslash-s-star-tag-lazy-body-closetag,
then the last match whose strip is non-empty, stripped. -/
def extract_last_block (tag : String) (text : String) : String :=
  String.mk
    (pickLastNonEmpty (scanTagMatches (tagOpen tag) (tagClose tag) text.data true).reverse)

/-- Result record of WebResearcherAgent.parse_output. -/
structure ParsedOutput where
  plan : String
  report : String
  tool_call : String
  answer : String
  terminate : Bool
  terminate_reason : String
deriving DecidableEq

/-- Embeds WebResearcherAgent.parse_output.  terminate is set, and the
reason populated, exactly when the extracted terminate body is non-empty;
when the body extraction yields the empty string the flag and reason keep
their defaults. -/
def parse_output (text : String) : ParsedOutput :=
  let term_body := extract_last_block "terminate" text
  { plan := extract_last_block "plan" text
    report := extract_last_block "report" text
    tool_call := extract_last_block "tool_call" text
    answer := extract_last_block "answer" text
    terminate := term_body != ""
    terminate_reason := if term_body != "" then term_body else "" }

end WebResearcherAgent

namespace WebWeaverPlanner

/-- Result record of the Planner and Writer parse_output. -/
structure WeaverParsed where
  plan : String
  action_type : String
  action_content : String
deriving DecidableEq

/-- The plan group of the Planner and Writer parse_output: first DOTALL
match of the plan block, stripped, empty when absent. -/
def planGroup (text : String) : String :=
  match reSearchTag (tagOpen "plan") (tagClose "plan") text.data with
  | some m => String.mk (pyStrip m)
  | none => ""

/-- Action selection of WebWeaverPlanner.parse_output: terminate is tested
as bare presence of the opening tag, then the first write_outline match,
then the first tool_call match, else the error diagnostic.  Returns the
action_type and action_content pair. -/
def selectAction (text : String) : String × String :=
  if occursSub (tagOpen "terminate") text.data then ("terminate", "")
  else
    match reSearchTag (tagOpen "write_outline") (tagClose "write_outline") text.data with
    | some m => ("write_outline", String.mk (pyStrip m))
    | none =>
      match reSearchTag (tagOpen "tool_call") (tagClose "tool_call") text.data with
      | some m => ("tool_call", String.mk (pyStrip m))
      | none =>
        ("error",
         "No valid action tag found. Must use <tool_call>, <write_outline>, or <terminate>.")

/-- Embeds WebWeaverPlanner.parse_output: re.search (first DOTALL match) for
each block, with terminate tested as bare presence of the opening tag, and
precedence terminate, write_outline, tool_call, error. -/
def parse_output (text : String) : WeaverParsed :=
  { plan := planGroup text
    action_type := (selectAction text).1
    action_content := (selectAction text).2 }

end WebWeaverPlanner

namespace WebWeaverWriter

/-- Action selection of WebWeaverWriter.parse_output: terminate is tested
as bare presence of the opening tag, then the first write match, then the
first tool_call match, else the error diagnostic. -/
def selectAction (text : String) : String × String :=
  if occursSub (tagOpen "terminate") text.data then ("terminate", "")
  else
    match reSearchTag (tagOpen "write") (tagClose "write") text.data with
    | some m => ("write", String.mk (pyStrip m))
    | none =>
      match reSearchTag (tagOpen "tool_call") (tagClose "tool_call") text.data with
      | some m => ("tool_call", String.mk (pyStrip m))
      | none =>
        ("error",
         "No valid action tag found. Must use <tool_call> (retrieve), <write>, or <terminate>.")

/-- Embeds WebWeaverWriter.parse_output: re.search (first DOTALL match) for
each block, with terminate tested as bare presence of the opening tag, and
precedence terminate, write, tool_call, error. -/
def parse_output (text : String) : WebWeaverPlanner.WeaverParsed :=
  { plan := WebWeaverPlanner.planGroup text
    action_type := (selectAction text).1
    action_content := (selectAction text).2 }

end WebWeaverWriter

example :
    (WebResearcherAgent.parse_output
      "<plan>p</plan>\n<report>r1</report>\n<report>r2</report>\n<answer>42</answer>").report
      = "r2" := by decide

example :
    (WebResearcherAgent.parse_output "<terminate></terminate>").terminate = false := by decide

example :
    (WebResearcherAgent.parse_output "<terminate> stop now </terminate>").terminate_reason
      = "stop now" := by decide

example :
    (WebWeaverPlanner.parse_output "<plan>a</plan>\n<plan>b</plan>").plan = "a" := by decide

example :
    (WebWeaverPlanner.parse_output "x <terminate> y").action_type = "terminate" := by decide

example :
    (WebWeaverWriter.parse_output "<plan>q</plan><write>sec</write>").action_type
      = "write" := by decide

namespace PyStr

/-- Spec-side selection policy: among the listed match bodies, the last one
that is non-empty after stripping, stripped; empty when there is none. -/
def lastNonEmptySpec (ms : List (List Char)) : List Char :=
  match (ms.filter (fun m => !(pyStrip m).isEmpty)).getLast? with
  | some m => pyStrip m
  | none => []

theorem splitAtFirstOccur_none_cons (pat : List Char) (c : Char) (cs : List Char)
    (h : splitAtFirstOccur pat (c :: cs) = none) :
    splitAtFirstOccur pat cs = none := by
  unfold splitAtFirstOccur at h
  by_cases hl : leadsWith pat (c :: cs) = true
  · simp [hl] at h
  · simp only [hl, Bool.false_eq_true, if_false] at h
    cases hrec : splitAtFirstOccur pat cs with
    | none => rfl
    | some pr => rw [hrec] at h; simp at h

theorem splitAtFirstOccur_none_drop (pat : List Char) :
    ∀ s, splitAtFirstOccur pat s = none →
      ∀ k, splitAtFirstOccur pat (s.drop k) = none := by
  intro s
  induction s with
  | nil => intro h k; simp only [List.drop_nil]; exact h
  | cons c cs ih =>
    intro h k
    cases k with
    | zero => exact h
    | succ k =>
      rw [List.drop_succ_cons]
      exact ih (splitAtFirstOccur_none_cons pat c cs h) k

theorem scanAnywhereMatchesF_nil_of_no_close (openT closeT : List Char) :
    ∀ fuel u,
      (∀ k, splitAtFirstOccur closeT (u.drop (k + openT.length)) = none) →
      scanAnywhereMatchesF openT closeT fuel u = [] := by
  intro fuel
  induction fuel with
  | zero => intro u h; rfl
  | succ f ih =>
    intro u h
    cases u with
    | nil => rfl
    | cons c cs =>
      have hcs : ∀ k, splitAtFirstOccur closeT (cs.drop (k + openT.length)) = none := by
        intro k
        have := h (k + 1)
        rw [show k + 1 + openT.length = (k + openT.length) + 1 by omega] at this
        rw [List.drop_succ_cons] at this
        exact this
      have hnone : matchHere openT closeT (c :: cs) = none := by
        unfold matchHere
        by_cases he : (openT.isEmpty || closeT.isEmpty) = true
        · simp [he]
        · simp only [he, if_false]
          by_cases hl : leadsWith openT (c :: cs) = true
          · simp only [hl, if_true]
            have := h 0
            rw [Nat.zero_add] at this
            exact this
          · simp [hl]
      simp only [scanAnywhereMatchesF, hnone]
      exact ih cs hcs

theorem splitAtFirstOccur_cons_pos (pat : List Char) (c : Char) (cs : List Char)
    (h : leadsWith pat (c :: cs) = true) :
    splitAtFirstOccur pat (c :: cs) = some ([], (c :: cs).drop pat.length) := by
  unfold splitAtFirstOccur
  rw [if_pos h]

theorem splitAtFirstOccur_cons_neg (pat : List Char) (c : Char) (cs : List Char)
    (h : ¬ leadsWith pat (c :: cs) = true) :
    splitAtFirstOccur pat (c :: cs)
      = match splitAtFirstOccur pat cs with
        | some (pre, post) => some (c :: pre, post)
        | none => none := by
  conv_lhs => unfold splitAtFirstOccur
  rw [if_neg h]

theorem reSearchTag_eq_head (openT closeT : List Char)
    (ho : openT ≠ []) (hc : closeT ≠ []) :
    ∀ s, reSearchTag openT closeT s = (scanAnywhereMatches openT closeT s).head? := by
  intro s
  induction s with
  | nil => rfl
  | cons c cs ih =>
    have hguard : (openT.isEmpty || closeT.isEmpty) = false := by
      simp [List.isEmpty_eq_false.mpr ho, List.isEmpty_eq_false.mpr hc]
    unfold scanAnywhereMatches at ih ⊢
    simp only [List.length_cons]
    simp only [scanAnywhereMatchesF]
    by_cases hl : leadsWith openT (c :: cs) = true
    · have hopen := splitAtFirstOccur_cons_pos openT c cs hl
      have hre : reSearchTag openT closeT (c :: cs)
          = match splitAtFirstOccur closeT ((c :: cs).drop openT.length) with
            | some (body, _) => some body
            | none => none := by
        unfold reSearchTag
        rw [hopen]
      have hmh : matchHere openT closeT (c :: cs)
          = splitAtFirstOccur closeT ((c :: cs).drop openT.length) := by
        unfold matchHere
        rw [hguard]
        simp only [Bool.false_eq_true, if_false]
        rw [if_pos hl]
      rw [hre, hmh]
      cases hcl : splitAtFirstOccur closeT ((c :: cs).drop openT.length) with
      | some bp =>
        obtain ⟨body, post⟩ := bp
        rfl
      | none =>
        have hcs : ∀ k, splitAtFirstOccur closeT (cs.drop (k + openT.length)) = none := by
          intro k
          have h1 := splitAtFirstOccur_none_drop closeT _ hcl (k + 1)
          rw [List.drop_drop] at h1
          rw [show openT.length + (k + 1) = (k + openT.length) + 1 by omega] at h1
          rw [List.drop_succ_cons] at h1
          exact h1
        show none = (scanAnywhereMatchesF openT closeT (cs.length + 1) cs).head?
        rw [scanAnywhereMatchesF_nil_of_no_close openT closeT (cs.length + 1) cs hcs]
        rfl
    · have hmh : matchHere openT closeT (c :: cs) = none := by
        unfold matchHere
        rw [hguard]
        simp only [Bool.false_eq_true, if_false]
        rw [if_neg hl]
      rw [hmh]
      have hre : reSearchTag openT closeT (c :: cs) = reSearchTag openT closeT cs := by
        unfold reSearchTag
        rw [splitAtFirstOccur_cons_neg openT c cs hl]
        cases hrec : splitAtFirstOccur openT cs with
        | none => rfl
        | some pr => obtain ⟨pre, post⟩ := pr; rfl
      rw [hre, ih]

end PyStr

namespace PyStr

/-- Spec-side reading of the anchored extraction policy: strip the last
non-empty body among the line-start anchored delimited blocks of a label. -/
def lastBlockSpec (tag : String) (text : String) : String :=
  String.mk (lastNonEmptySpec (scanTagMatches (tagOpen tag) (tagClose tag) text.data true))

/-- Spec-side reading of the first-match policy: strip the body of the first
delimited block of a label, anywhere in the text. -/
def firstBlockSpec (tag : String) (text : String) : String :=
  match (scanAnywhereMatches (tagOpen tag) (tagClose tag) text.data).head? with
  | some m => String.mk (pyStrip m)
  | none => ""

theorem mem_filter_of_getLast?_eq_some {l : List (List Char)} {p : List Char → Bool}
    {m : List Char} (h : (l.filter p).getLast? = some m) : p m = true := by
  have h2 : m ∈ (l.filter p).getLast? := h ▸ rfl
  obtain ⟨hne, heq⟩ := List.mem_getLast?_eq_getLast h2
  have hm : m ∈ l.filter p := by
    rw [heq]
    exact List.getLast_mem hne
  exact List.of_mem_filter hm

theorem lastNonEmptySpec_ne_nil_iff (ms : List (List Char)) :
    lastNonEmptySpec ms ≠ []
      ↔ ms.filter (fun m => !(pyStrip m).isEmpty) ≠ [] := by
  unfold lastNonEmptySpec
  cases h : (ms.filter (fun m => !(pyStrip m).isEmpty)).getLast? with
  | none =>
    rw [List.getLast?_eq_none_iff] at h
    simp [h]
  | some m =>
    have hp := mem_filter_of_getLast?_eq_some h
    simp only [Bool.not_eq_true', List.isEmpty_eq_false] at hp
    constructor
    · intro _ hnil
      rw [hnil] at h
      simp at h
    · intro _
      exact hp

theorem stringMk_eq_empty_iff (l : List Char) : String.mk l = "" ↔ l = [] := by
  constructor
  · intro h
    have := congrArg String.data h
    exact this
  · intro h
    subst h
    rfl

end PyStr

namespace WebResearcherAgent

theorem pickLastNonEmpty_eq_head (l : List (List Char)) :
    pickLastNonEmpty l =
      match (l.filter (fun m => !(pyStrip m).isEmpty)).head? with
      | some m => pyStrip m
      | none => [] := by
  induction l with
  | nil => rfl
  | cons m ms ih =>
    by_cases h : pyStrip m = []
    · have hp : (!(pyStrip m).isEmpty) = false := by
        simp [List.isEmpty_iff, h]
      simp only [pickLastNonEmpty, List.filter_cons, hp, Bool.false_eq_true, if_false, if_neg,
        ih]
      rw [if_neg (by simp [h])]
    · have hp : (!(pyStrip m).isEmpty) = true := by
        simp [List.isEmpty_eq_false, h]
      simp only [pickLastNonEmpty, List.filter_cons, hp, if_true]
      rw [if_pos h]
      rfl

/-- The reverse walk of extract_last_block computes exactly the spec-side
last non-empty stripped match. -/
theorem pickLastNonEmpty_reverse (ms : List (List Char)) :
    pickLastNonEmpty ms.reverse = lastNonEmptySpec ms := by
  rw [pickLastNonEmpty_eq_head, List.filter_reverse, List.head?_reverse]
  rfl

theorem extract_last_block_eq_spec (tag text : String) :
    extract_last_block tag text = lastBlockSpec tag text := by
  unfold extract_last_block lastBlockSpec
  rw [pickLastNonEmpty_reverse]

end WebResearcherAgent

namespace PyStr

theorem tagOpen_ne_nil (t : String) : tagOpen t ≠ [] := by
  simp [tagOpen]

theorem tagClose_ne_nil (t : String) : tagClose t ≠ [] := by
  simp [tagClose]

end PyStr

theorem planGroup_eq_firstBlockSpec (text : String) :
    WebWeaverPlanner.planGroup text = firstBlockSpec "plan" text := by
  unfold WebWeaverPlanner.planGroup firstBlockSpec
  rw [reSearchTag_eq_head _ _ (tagOpen_ne_nil "plan") (tagClose_ne_nil "plan")]

/-- C2 counterexample: the Planner parser takes the FIRST plan block, not
the last non-empty one.  On a text with two plan blocks it extracts the
first body while the last non-empty delimited occurrence is the second. -/
theorem claim_C2_counterexample :
    (WebWeaverPlanner.parse_output "<plan>a</plan><plan>b</plan>").plan
      ≠ String.mk (lastNonEmptySpec
          (scanAnywhereMatches (tagOpen "plan") (tagClose "plan")
            "<plan>a</plan><plan>b</plan>".data)) := by decide

/-- C2 (amended): the iterative agent parser extracts, for each supported
label, the last non-empty line-start-anchored delimited occurrence; the
Planner and Writer parsers instead extract the first delimited occurrence
of each label: plan always, and the selected action payload for each of
write_outline, write and tool_call, while terminate is a bare presence
check of the opening tag. -/
theorem claim_C2 :
    (∀ text : String,
        (WebResearcherAgent.parse_output text).plan = lastBlockSpec "plan" text
      ∧ (WebResearcherAgent.parse_output text).report = lastBlockSpec "report" text
      ∧ (WebResearcherAgent.parse_output text).tool_call = lastBlockSpec "tool_call" text
      ∧ (WebResearcherAgent.parse_output text).answer = lastBlockSpec "answer" text
      ∧ (WebResearcherAgent.parse_output text).terminate_reason
          = lastBlockSpec "terminate" text)
  ∧ (∀ text : String,
        (WebWeaverPlanner.parse_output text).plan = firstBlockSpec "plan" text
      ∧ (WebWeaverWriter.parse_output text).plan = firstBlockSpec "plan" text)
  ∧ (∀ text : String, occursSub (tagOpen "terminate") text.data = false →
        ((WebWeaverPlanner.parse_output text).action_type = "write_outline" →
          (WebWeaverPlanner.parse_output text).action_content
            = firstBlockSpec "write_outline" text)
      ∧ ((WebWeaverWriter.parse_output text).action_type = "write" →
          (WebWeaverWriter.parse_output text).action_content
            = firstBlockSpec "write" text))
  ∧ (∀ text : String, occursSub (tagOpen "terminate") text.data = false →
        ((WebWeaverPlanner.parse_output text).action_type = "tool_call" →
          (WebWeaverPlanner.parse_output text).action_content
            = firstBlockSpec "tool_call" text)
      ∧ ((WebWeaverWriter.parse_output text).action_type = "tool_call" →
          (WebWeaverWriter.parse_output text).action_content
            = firstBlockSpec "tool_call" text))
  ∧ (∀ text : String, occursSub (tagOpen "terminate") text.data = true →
        (WebWeaverPlanner.parse_output text).action_type = "terminate"
      ∧ (WebWeaverWriter.parse_output text).action_type = "terminate") := by
  refine ⟨fun text => ⟨?_, ?_, ?_, ?_, ?_⟩, fun text => ⟨?_, ?_⟩, fun text hocc => ⟨?_, ?_⟩,
    fun text hocc => ⟨?_, ?_⟩, fun text hocc => ⟨?_, ?_⟩⟩
  · exact WebResearcherAgent.extract_last_block_eq_spec "plan" text
  · exact WebResearcherAgent.extract_last_block_eq_spec "report" text
  · exact WebResearcherAgent.extract_last_block_eq_spec "tool_call" text
  · exact WebResearcherAgent.extract_last_block_eq_spec "answer" text
  · rw [show (WebResearcherAgent.parse_output text).terminate_reason
        = (if WebResearcherAgent.extract_last_block "terminate" text != ""
           then WebResearcherAgent.extract_last_block "terminate" text else "") from rfl]
    rw [← WebResearcherAgent.extract_last_block_eq_spec]
    by_cases h : WebResearcherAgent.extract_last_block "terminate" text = ""
    · simp [h]
    · simp [h]
  · exact planGroup_eq_firstBlockSpec text
  · exact planGroup_eq_firstBlockSpec text
  · intro htype
    rw [show (WebWeaverPlanner.parse_output text).action_type
        = (WebWeaverPlanner.selectAction text).1 from rfl] at htype
    rw [show (WebWeaverPlanner.parse_output text).action_content
        = (WebWeaverPlanner.selectAction text).2 from rfl]
    unfold WebWeaverPlanner.selectAction at htype ⊢
    simp only [hocc, Bool.false_eq_true, if_false] at htype ⊢
    cases hwo : reSearchTag (tagOpen "write_outline") (tagClose "write_outline") text.data with
    | some m =>
      simp only [hwo]
      unfold firstBlockSpec
      rw [← reSearchTag_eq_head _ _ (tagOpen_ne_nil "write_outline")
        (tagClose_ne_nil "write_outline"), hwo]
    | none =>
      simp only [hwo] at htype
      cases htc : reSearchTag (tagOpen "tool_call") (tagClose "tool_call") text.data with
      | some m => simp only [htc] at htype; exact absurd htype (by decide)
      | none => simp only [htc] at htype; exact absurd htype (by decide)
  · intro htype
    rw [show (WebWeaverWriter.parse_output text).action_type
        = (WebWeaverWriter.selectAction text).1 from rfl] at htype
    rw [show (WebWeaverWriter.parse_output text).action_content
        = (WebWeaverWriter.selectAction text).2 from rfl]
    unfold WebWeaverWriter.selectAction at htype ⊢
    simp only [hocc, Bool.false_eq_true, if_false] at htype ⊢
    cases hwr : reSearchTag (tagOpen "write") (tagClose "write") text.data with
    | some m =>
      simp only [hwr]
      unfold firstBlockSpec
      rw [← reSearchTag_eq_head _ _ (tagOpen_ne_nil "write") (tagClose_ne_nil "write"), hwr]
    | none =>
      simp only [hwr] at htype
      cases htc : reSearchTag (tagOpen "tool_call") (tagClose "tool_call") text.data with
      | some m => simp only [htc] at htype; exact absurd htype (by decide)
      | none => simp only [htc] at htype; exact absurd htype (by decide)
  · intro htype
    rw [show (WebWeaverPlanner.parse_output text).action_type
        = (WebWeaverPlanner.selectAction text).1 from rfl] at htype
    rw [show (WebWeaverPlanner.parse_output text).action_content
        = (WebWeaverPlanner.selectAction text).2 from rfl]
    unfold WebWeaverPlanner.selectAction at htype ⊢
    simp only [hocc, Bool.false_eq_true, if_false] at htype ⊢
    cases hwo : reSearchTag (tagOpen "write_outline") (tagClose "write_outline") text.data with
    | some m => simp only [hwo] at htype; exact absurd htype (by decide)
    | none =>
      simp only [hwo] at htype ⊢
      cases htc : reSearchTag (tagOpen "tool_call") (tagClose "tool_call") text.data with
      | some m =>
        simp only [htc]
        unfold firstBlockSpec
        rw [← reSearchTag_eq_head _ _ (tagOpen_ne_nil "tool_call")
          (tagClose_ne_nil "tool_call"), htc]
      | none => simp only [htc] at htype; exact absurd htype (by decide)
  · intro htype
    rw [show (WebWeaverWriter.parse_output text).action_type
        = (WebWeaverWriter.selectAction text).1 from rfl] at htype
    rw [show (WebWeaverWriter.parse_output text).action_content
        = (WebWeaverWriter.selectAction text).2 from rfl]
    unfold WebWeaverWriter.selectAction at htype ⊢
    simp only [hocc, Bool.false_eq_true, if_false] at htype ⊢
    cases hwr : reSearchTag (tagOpen "write") (tagClose "write") text.data with
    | some m => simp only [hwr] at htype; exact absurd htype (by decide)
    | none =>
      simp only [hwr] at htype ⊢
      cases htc : reSearchTag (tagOpen "tool_call") (tagClose "tool_call") text.data with
      | some m =>
        simp only [htc]
        unfold firstBlockSpec
        rw [← reSearchTag_eq_head _ _ (tagOpen_ne_nil "tool_call")
          (tagClose_ne_nil "tool_call"), htc]
      | none => simp only [htc] at htype; exact absurd htype (by decide)
  · rw [show (WebWeaverPlanner.parse_output text).action_type
        = (WebWeaverPlanner.selectAction text).1 from rfl]
    unfold WebWeaverPlanner.selectAction
    simp [hocc]
  · rw [show (WebWeaverWriter.parse_output text).action_type
        = (WebWeaverWriter.selectAction text).1 from rfl]
    unfold WebWeaverWriter.selectAction
    simp [hocc]

/-- C2 witness: the amended theorem applied at a concrete Planner output
holding one plan and one write_outline block, at a concrete Writer output
holding one tool_call block, and at a bare terminate opening tag. -/
theorem claim_C2_witness :
    (WebWeaverPlanner.parse_output
        "<plan>p</plan><write_outline>o</write_outline>").action_content
      = firstBlockSpec "write_outline" "<plan>p</plan><write_outline>o</write_outline>"
    ∧ (WebWeaverWriter.parse_output "<tool_call>T</tool_call>").action_content
      = firstBlockSpec "tool_call" "<tool_call>T</tool_call>"
    ∧ (WebWeaverPlanner.parse_output "x <terminate> y").action_type = "terminate" :=
  ⟨(claim_C2.2.2.1 "<plan>p</plan><write_outline>o</write_outline>" (by decide)).1 (by decide),
   (claim_C2.2.2.2.1 "<tool_call>T</tool_call>" (by decide)).2 (by decide),
   (claim_C2.2.2.2.2 "x <terminate> y" (by decide)).1⟩

/-- C3 counterexample: WebResearcherAgent.parse_output does NOT set the
terminate flag on an empty-bodied terminate block; the extraction discards
empty matches, so the flag stays false. -/
theorem claim_C3_counterexample :
    (WebResearcherAgent.parse_output "<terminate></terminate>").terminate = false := by
  decide

/-- C3 (amended): in WebResearcherAgent.parse_output, terminate is set
exactly when some line-start terminate block has a non-empty body, and the
reason is then that body (never empty); an empty or whitespace-only body
leaves the flag false.  The Planner and Writer parsers instead treat
terminate as a pure presence signal of the opening tag, with empty reason. -/
theorem claim_C3 :
    (∀ text : String,
        ((WebResearcherAgent.parse_output text).terminate = true
          ↔ (scanTagMatches (tagOpen "terminate") (tagClose "terminate") text.data true).filter
              (fun m => !(pyStrip m).isEmpty) ≠ []))
  ∧ (∀ text : String, (WebResearcherAgent.parse_output text).terminate = true →
        (WebResearcherAgent.parse_output text).terminate_reason
          = WebResearcherAgent.extract_last_block "terminate" text
      ∧ (WebResearcherAgent.parse_output text).terminate_reason ≠ "")
  ∧ (∀ text : String, occursSub (tagOpen "terminate") text.data = true →
        (WebWeaverPlanner.parse_output text).action_type = "terminate"
      ∧ (WebWeaverWriter.parse_output text).action_type = "terminate") := by
  refine ⟨fun text => ?_, fun text h => ?_, fun text hocc => ⟨?_, ?_⟩⟩
  · rw [show (WebResearcherAgent.parse_output text).terminate
        = (WebResearcherAgent.extract_last_block "terminate" text != "") from rfl]
    rw [WebResearcherAgent.extract_last_block_eq_spec]
    unfold lastBlockSpec
    rw [bne_iff_ne, ne_eq, stringMk_eq_empty_iff]
    constructor
    · intro hne
      exact (lastNonEmptySpec_ne_nil_iff _).mp hne
    · intro hne
      exact (lastNonEmptySpec_ne_nil_iff _).mpr hne
  · rw [show (WebResearcherAgent.parse_output text).terminate
        = (WebResearcherAgent.extract_last_block "terminate" text != "") from rfl] at h
    rw [show (WebResearcherAgent.parse_output text).terminate_reason
        = (if WebResearcherAgent.extract_last_block "terminate" text != ""
           then WebResearcherAgent.extract_last_block "terminate" text else "") from rfl]
    rw [if_pos h]
    exact ⟨rfl, bne_iff_ne.mp h⟩
  · rw [show (WebWeaverPlanner.parse_output text).action_type
        = (WebWeaverPlanner.selectAction text).1 from rfl]
    unfold WebWeaverPlanner.selectAction
    simp [hocc]
  · rw [show (WebWeaverWriter.parse_output text).action_type
        = (WebWeaverWriter.selectAction text).1 from rfl]
    unfold WebWeaverWriter.selectAction
    simp [hocc]

/-- C3 witness: the amended theorem applied at a terminate block with a
non-empty body for the iterative parser, and at a bare terminate opening
tag for the Planner parser. -/
theorem claim_C3_witness :
    (WebResearcherAgent.parse_output "<terminate>stop</terminate>").terminate_reason ≠ ""
    ∧ (WebWeaverPlanner.parse_output "<terminate>").action_type = "terminate" :=
  ⟨(claim_C3.2.1 "<terminate>stop</terminate>" (by decide)).2,
   (claim_C3.2.2 "<terminate>" (by decide)).1⟩

namespace PyStr

theorem dropWhile_idem (p : Char → Bool) (x : List Char) :
    (x.dropWhile p).dropWhile p = x.dropWhile p := by
  induction x with
  | nil => rfl
  | cons c cs ih =>
    by_cases h : p c = true
    · simp [List.dropWhile_cons, h, ih]
    · simp [List.dropWhile_cons, h]

theorem dropWhile_cons_eq_self (p : Char → Bool) (c : Char) (t : List Char)
    (h : List.dropWhile p (c :: t) = c :: t) : p c = false := by
  by_cases hc : p c = true
  · rw [List.dropWhile_cons, if_pos hc] at h
    have hlen := congrArg List.length h
    have hle := length_dropWhile_le_self p t
    simp only [List.length_cons] at hlen
    omega
  · simpa using hc

theorem pyStrip_idem (x : List Char) : pyStrip (pyStrip x) = pyStrip x := by
  unfold pyStrip
  set p := pyIsSpace with hp
  set y := x.dropWhile p with hy
  set b := (y.reverse.dropWhile p).reverse with hb
  have hyy : y.dropWhile p = y := by
    rw [hy]
    exact dropWhile_idem p x
  have hsplit : y = b ++ (y.reverse.takeWhile p).reverse := by
    conv_lhs => rw [← List.reverse_reverse y,
      ← List.takeWhile_append_dropWhile (p := p) (l := y.reverse)]
    rw [List.reverse_append, hb]
  have h1 : b.dropWhile p = b := by
    cases hbc : b with
    | nil => simp
    | cons c t =>
      have hy2 : y = c :: (t ++ (y.reverse.takeWhile p).reverse) := by
        conv_lhs => rw [hsplit, hbc]
        simp
      have hyc := hyy
      rw [hy2] at hyc
      have hpc := dropWhile_cons_eq_self p c _ hyc
      rw [List.dropWhile_cons, if_neg (by simp [hpc])]
  rw [h1]
  have h2 : b.reverse = y.reverse.dropWhile p := by
    rw [hb, List.reverse_reverse]
  rw [h2, dropWhile_idem, ← h2, List.reverse_reverse]

theorem pyStripS_idem (s : String) : pyStripS (pyStripS s) = pyStripS s := by
  unfold pyStripS
  rw [show (String.mk (pyStrip s.data)).data = pyStrip s.data from rfl, pyStrip_idem]

end PyStr

namespace WebResearcherAgent

theorem pickLastNonEmpty_strip_fixed (L : List (List Char)) :
    pyStrip (pickLastNonEmpty L) = pickLastNonEmpty L := by
  induction L with
  | nil => rfl
  | cons m ms ih =>
    unfold pickLastNonEmpty
    by_cases h : pyStrip m ≠ []
    · rw [if_pos h]
      exact pyStrip_idem m
    · rw [if_neg h]
      exact ih

theorem pyStripS_extract_last_block (tag text : String) :
    pyStripS (extract_last_block tag text) = extract_last_block tag text := by
  unfold extract_last_block pyStripS
  rw [show (String.mk (pickLastNonEmpty
      (scanTagMatches (tagOpen tag) (tagClose tag) text.data true).reverse)).data
      = pickLastNonEmpty (scanTagMatches (tagOpen tag) (tagClose tag) text.data true).reverse
      from rfl]
  rw [pickLastNonEmpty_strip_fixed]

end WebResearcherAgent

namespace WebResearcherAgent

/-- External inputs of one round of WebResearcherAgent.run: whether the
wall-clock deadline was exceeded at the top of the round, whether the LLM
round raised an unexpected exception (and its text), the response content,
the native tool-call result strings (function-calling mode; empty list when
none), the XML tool execution result, the outcome of the forced-answer call
issued when no action tag is present, whether the token-count check trips,
and the content of the token-limit forced call. -/
structure RoundInput where
  timedOut : Bool
  llmError : Option String
  content : String
  fcToolResults : List String
  toolResult : String
  forcedError : Option String
  forcedContent : String
  tokenOver : Bool
  tokenForcedContent : String

/-- Workspace state of ResearchRound: the evolving report and the last
observation carried between rounds. -/
structure RState where
  current_report : String
  last_observation : String
deriving DecidableEq

/-- ResearchRound state after construction: both fields hold non-empty
sentinel texts. -/
def initRState : RState :=
  { current_report := "This is the first round. The report is empty."
    last_observation := "This is the first round. No tool has been called yet." }

/-- Report update of run: the report is replaced only when the parsed
report block is non-empty. -/
def updateReport (st : RState) (rep : String) : RState :=
  if rep ≠ "" then { st with current_report := rep } else st

/-- Outcome of the body of one loop round: break with a prediction and a
termination tag, or continue into the next round. -/
inductive RoundOut where
  | brk (prediction termination : String) (st : RState)
  | cont (st : RState)
deriving DecidableEq

/-- One round of the run loop after the timeout check, covering both the
function-calling branch and the XML-protocol branch of the source in their
original order: unknown LLM error, native tool calls, parse, report update,
answer, terminate, last-call promotion, tool execution with token check,
and the forced-answer recovery when no action tag is present. -/
def roundStep (useXml : Bool) (inp : RoundInput) (isLast : Bool) (st : RState) : RoundOut :=
  match inp.llmError with
  | some e => .brk ("Error: Unknown " ++ e) "unknown error" st
  | none =>
    if useXml = false ∧ inp.fcToolResults ≠ [] then
      let st1 := { st with last_observation := String.intercalate "\n\n" inp.fcToolResults }
      if inp.content ≠ "" then
        let parsed := parse_output inp.content
        let st2 := updateReport st1 parsed.report
        if parsed.answer ≠ "" then .brk parsed.answer "answer found" st2
        else .cont st2
      else .cont st1
    else
      let parsed := parse_output inp.content
      let st1 := updateReport st parsed.report
      if parsed.answer ≠ "" then
        .brk parsed.answer
          (if parsed.terminate then "terminate with answer" else "answer found") st1
      else if parsed.terminate then
        let reason := pyStripS parsed.terminate_reason
        .brk (if reason ≠ "" then reason else pyStripS st1.current_report)
          "terminated by llm" st1
      else if isLast then
        let fb := pyStripS st1.current_report
        let reason := pyStripS parsed.terminate_reason
        .brk (if fb ≠ "" then fb else if reason ≠ "" then reason else st1.last_observation)
          "finalized without answer tag" st1
      else if parsed.tool_call ≠ "" then
        let st2 := { st1 with last_observation := inp.toolResult }
        if inp.tokenOver then
          let parsed2 := parse_output inp.tokenForcedContent
          .brk (if parsed2.answer ≠ "" then parsed2.answer
                else "No answer found (token limit).")
            "token limit reached" st2
        else .cont st2
      else
        match inp.forcedError with
        | some _ => .brk "No answer found (format error)." "format error" st1
        | none =>
          let forcedParsed := parse_output inp.forcedContent
          if forcedParsed.answer ≠ "" then .brk forcedParsed.answer "answer (forced)" st1
          else .brk "No answer found (format error after retry)." "format error" st1

/-- Exit value of the while loop of run: the prediction and termination as
set at the break (both empty on natural exhaustion of the budget), the
final workspace, the remaining call budget, and the trace of the report
value at the end of each round. -/
structure LoopExit where
  prediction : String
  termination : String
  st : RState
  callsLeft : Nat
  reportTrace : List String
deriving DecidableEq

/-- The while loop of run: fuel is num_llm_calls_available, ins k supplies
the externals of round k.  The timeout is checked at the top of the round
before the budget is decremented; the last allowed call is flagged to the
round body. -/
def runLoop (useXml : Bool) (ins : Nat → RoundInput) : Nat → Nat → RState → LoopExit
  | 0, _, st => ⟨"", "", st, 0, []⟩
  | fuel + 1, k, st =>
    if (ins k).timedOut then
      ⟨"No answer found (timeout).", "timeout", st, fuel + 1, [st.current_report]⟩
    else
      match roundStep useXml (ins k) (fuel == 0) st with
      | .brk p t st1 => ⟨p, t, st1, fuel, [st1.current_report]⟩
      | .cont st1 =>
        let e := runLoop useXml ins fuel (k + 1) st1
        ⟨e.prediction, e.termination, e.st, e.callsLeft, st1.current_report :: e.reportTrace⟩

/-- Result record of run (question and trajectory omitted; they are not
needed by any claim). -/
structure RunResult where
  prediction : String
  termination : String
  report : String
deriving DecidableEq

/-- Post-loop fallback of run: when the loop set no prediction, fall back
to the stripped report, else to a fixed sentinel chosen by the remaining
budget. -/
def finalizeRun (e : LoopExit) : RunResult :=
  if e.prediction ≠ "" then ⟨e.prediction, e.termination, e.st.current_report⟩
  else if pyStripS e.st.current_report ≠ "" then
    ⟨pyStripS e.st.current_report,
     if e.termination = "" then "report fallback" else e.termination,
     e.st.current_report⟩
  else if e.callsLeft == 0 then
    ⟨"No answer found (exceeded available LLM calls).", "exceed available llm calls",
     e.st.current_report⟩
  else
    ⟨"No answer found.", "answer not found", e.st.current_report⟩

/-- Embeds WebResearcherAgent.run: the loop from the fresh workspace with
the configured call budget, then the fallback finalization. -/
def run (useXml : Bool) (ins : Nat → RoundInput) (maxCalls : Nat) : RunResult :=
  finalizeRun (runLoop useXml ins maxCalls 0 initRState)

/-- Report values observed after each round of a run. -/
def runTrace (useXml : Bool) (ins : Nat → RoundInput) (maxCalls : Nat) : List String :=
  (runLoop useXml ins maxCalls 0 initRState).reportTrace

end WebResearcherAgent

namespace WebResearcherAgent

/-- State carried out of a round outcome, for stating invariants. -/
def RoundOut.stOf : RoundOut → RState
  | .brk _ _ s => s
  | .cont s => s

theorem updateReport_report_ok (content : String) (st : RState)
    (h : pyStripS st.current_report ≠ "") :
    pyStripS (updateReport st (parse_output content).report).current_report ≠ "" := by
  unfold updateReport
  by_cases hr : (parse_output content).report ≠ ""
  · rw [if_pos hr]
    show pyStripS (parse_output content).report ≠ ""
    have hrep : (parse_output content).report = extract_last_block "report" content := rfl
    rw [hrep, pyStripS_extract_last_block, ← hrep]
    exact hr
  · rw [if_neg hr]
    exact h

theorem roundStep_report_ok (useXml : Bool) (inp : RoundInput) (isLast : Bool) (st : RState)
    (h : pyStripS st.current_report ≠ "") :
    pyStripS ((roundStep useXml inp isLast st).stOf).current_report ≠ "" := by
  simp only [roundStep]
  split
  · exact h
  · split
    · split
      · split
        · exact updateReport_report_ok inp.content _ h
        · exact updateReport_report_ok inp.content _ h
      · exact h
    · split
      · exact updateReport_report_ok inp.content _ h
      · split
        · exact updateReport_report_ok inp.content _ h
        · split
          · exact updateReport_report_ok inp.content _ h
          · split
            · split
              · exact updateReport_report_ok inp.content _ h
              · exact updateReport_report_ok inp.content _ h
            · split
              · exact updateReport_report_ok inp.content _ h
              · split
                · exact updateReport_report_ok inp.content _ h
                · exact updateReport_report_ok inp.content _ h

theorem runLoop_report_ok (useXml : Bool) (ins : Nat → RoundInput) :
    ∀ fuel k st, pyStripS st.current_report ≠ "" →
      pyStripS (runLoop useXml ins fuel k st).st.current_report ≠ ""
      ∧ ∀ r ∈ (runLoop useXml ins fuel k st).reportTrace, pyStripS r ≠ "" := by
  intro fuel
  induction fuel with
  | zero =>
    intro k st h
    refine ⟨h, ?_⟩
    intro r hr
    simp [runLoop] at hr
  | succ f ih =>
    intro k st h
    simp only [runLoop]
    by_cases ht : (ins k).timedOut = true
    · rw [if_pos ht]
      refine ⟨h, ?_⟩
      intro r hr
      simp at hr
      subst hr
      exact h
    · rw [if_neg ht]
      have hstep := roundStep_report_ok useXml (ins k) (f == 0) st h
      cases hs : roundStep useXml (ins k) (f == 0) st with
      | brk p t st1 =>
        rw [hs] at hstep
        refine ⟨hstep, ?_⟩
        intro r hr
        simp at hr
        subst hr
        exact hstep
      | cont st1 =>
        rw [hs] at hstep
        obtain ⟨h1, h2⟩ := ih (k + 1) st1 hstep
        refine ⟨h1, ?_⟩
        intro r hr
        simp at hr
        cases hr with
        | inl hr1 => subst hr1; exact hstep
        | inr hr2 => exact h2 r hr2

theorem finalizeRun_report (e : LoopExit) :
    (finalizeRun e).report = e.st.current_report := by
  unfold finalizeRun
  split
  · rfl
  · split
    · rfl
    · split
      · rfl
      · rfl

end WebResearcherAgent

/-- C1: on every exit path of WebResearcherAgent.run (answer, terminate,
last-round fallback, forced finalization, format error, token limit,
timeout, unknown error, budget exhaustion) the returned prediction is a
non-empty string: every break value is either a parsed non-empty answer, a
terminate reason falling back to the stripped report, the stripped report
falling back to the last observation, or a fixed sentinel, and the
post-loop fallback promotes the stripped report or a sentinel. -/
theorem claim_C1 (useXml : Bool) (ins : Nat → WebResearcherAgent.RoundInput) (maxCalls : Nat) :
    (WebResearcherAgent.run useXml ins maxCalls).prediction ≠ "" := by
  have hinv := (WebResearcherAgent.runLoop_report_ok useXml ins maxCalls 0
    WebResearcherAgent.initRState (by decide)).1
  unfold WebResearcherAgent.run
  unfold WebResearcherAgent.finalizeRun
  by_cases hp : (WebResearcherAgent.runLoop useXml ins maxCalls 0
      WebResearcherAgent.initRState).prediction ≠ ""
  · rw [if_pos hp]
    exact hp
  · rw [if_neg hp, if_pos hinv]
    exact hinv

/-- C10: the workspace report is never empty during a run: it starts as a
non-empty sentinel, it is still non-empty (after stripping) at the end of
every round and at return, and the update step either keeps the previous
report or replaces it with a non-empty parsed report block. -/
theorem claim_C10 (useXml : Bool) (ins : Nat → WebResearcherAgent.RoundInput) (maxCalls : Nat) :
    pyStripS WebResearcherAgent.initRState.current_report ≠ ""
    ∧ pyStripS (WebResearcherAgent.run useXml ins maxCalls).report ≠ ""
    ∧ (∀ r ∈ WebResearcherAgent.runTrace useXml ins maxCalls, pyStripS r ≠ "")
    ∧ ∀ (st : WebResearcherAgent.RState) (rep : String),
        (WebResearcherAgent.updateReport st rep).current_report = st.current_report
        ∨ ((WebResearcherAgent.updateReport st rep).current_report = rep ∧ rep ≠ "") := by
  obtain ⟨h1, h2⟩ := WebResearcherAgent.runLoop_report_ok useXml ins maxCalls 0
    WebResearcherAgent.initRState (by decide)
  refine ⟨by decide, ?_, h2, ?_⟩
  · unfold WebResearcherAgent.run
    rw [WebResearcherAgent.finalizeRun_report]
    exact h1
  · intro st rep
    unfold WebResearcherAgent.updateReport
    by_cases h : rep ≠ ""
    · right
      rw [if_pos h]
      exact ⟨rfl, h⟩
    · left
      rw [if_neg h]

/-- C10 witness: a concrete run whose single round answers immediately; the
report trace holds the parsed report block, which is non-empty after
stripping. -/
theorem claim_C10_witness :
    pyStripS "r" ≠ ""
    ∧ "r" ∈ WebResearcherAgent.runTrace true
        (fun _ => ⟨false, none,
          "<report>r</report>\n<answer>42</answer>", [], "", none, "", false, ""⟩) 3 :=
  ⟨(claim_C10 true
      (fun _ => ⟨false, none,
        "<report>r</report>\n<answer>42</answer>", [], "", none, "", false, ""⟩) 3).2.2.1
    "r" (by decide),
   by decide⟩

namespace WebResearcherAgent

theorem roundStep_not_fc (useXml : Bool) (inp : RoundInput)
    (hfc : useXml = true ∨ inp.fcToolResults = []) :
    ¬(useXml = false ∧ inp.fcToolResults ≠ []) := by
  intro ⟨h1, h2⟩
  cases hfc with
  | inl h => rw [h] at h1; exact absurd h1 (by simp)
  | inr h => exact h2 h

theorem roundStep_answer_brk (useXml : Bool) (inp : RoundInput) (isLast : Bool) (st : RState)
    (hle : inp.llmError = none)
    (hfc : useXml = true ∨ inp.fcToolResults = [])
    (hans : (parse_output inp.content).answer ≠ "") :
    roundStep useXml inp isLast st
      = .brk (parse_output inp.content).answer
          (if (parse_output inp.content).terminate then "terminate with answer"
           else "answer found")
          (updateReport st (parse_output inp.content).report) := by
  simp only [roundStep, hle]
  rw [if_neg (roundStep_not_fc useXml inp hfc)]
  rw [if_pos hans]

theorem roundStep_terminate_brk (useXml : Bool) (inp : RoundInput) (isLast : Bool) (st : RState)
    (hle : inp.llmError = none)
    (hfc : useXml = true ∨ inp.fcToolResults = [])
    (hans : (parse_output inp.content).answer = "")
    (hterm : (parse_output inp.content).terminate = true) :
    roundStep useXml inp isLast st
      = .brk (if pyStripS (parse_output inp.content).terminate_reason ≠ ""
              then pyStripS (parse_output inp.content).terminate_reason
              else pyStripS (updateReport st (parse_output inp.content).report).current_report)
          "terminated by llm"
          (updateReport st (parse_output inp.content).report) := by
  simp only [roundStep, hle]
  rw [if_neg (roundStep_not_fc useXml inp hfc)]
  rw [if_neg (by simp [hans])]
  rw [if_pos hterm]

end WebResearcherAgent

/-- C9: when a parsed round output carries both a non-empty answer and the
terminate flag, the loop breaks in that round with the answer as the
prediction (answer takes precedence over terminate); the terminate-reason
fallback branch runs only when no answer is present, and a run whose first
round is such a round returns that answer as the final prediction. -/
theorem claim_C9 :
    (∀ (useXml : Bool) (inp : WebResearcherAgent.RoundInput) (isLast : Bool)
        (st : WebResearcherAgent.RState),
       inp.llmError = none →
       (useXml = true ∨ inp.fcToolResults = []) →
       (WebResearcherAgent.parse_output inp.content).answer ≠ "" →
       (WebResearcherAgent.parse_output inp.content).terminate = true →
       WebResearcherAgent.roundStep useXml inp isLast st
         = .brk (WebResearcherAgent.parse_output inp.content).answer "terminate with answer"
             (WebResearcherAgent.updateReport st
               (WebResearcherAgent.parse_output inp.content).report))
  ∧ (∀ (useXml : Bool) (inp : WebResearcherAgent.RoundInput) (isLast : Bool)
        (st : WebResearcherAgent.RState),
       inp.llmError = none →
       (useXml = true ∨ inp.fcToolResults = []) →
       (WebResearcherAgent.parse_output inp.content).answer = "" →
       (WebResearcherAgent.parse_output inp.content).terminate = true →
       WebResearcherAgent.roundStep useXml inp isLast st
         = .brk (if pyStripS (WebResearcherAgent.parse_output inp.content).terminate_reason ≠ ""
                 then pyStripS (WebResearcherAgent.parse_output inp.content).terminate_reason
                 else pyStripS (WebResearcherAgent.updateReport st
                   (WebResearcherAgent.parse_output inp.content).report).current_report)
             "terminated by llm"
             (WebResearcherAgent.updateReport st
               (WebResearcherAgent.parse_output inp.content).report))
  ∧ (∀ (ins : Nat → WebResearcherAgent.RoundInput) (f : Nat),
       (ins 0).timedOut = false →
       (ins 0).llmError = none →
       (ins 0).fcToolResults = [] →
       (WebResearcherAgent.parse_output (ins 0).content).answer ≠ "" →
       (WebResearcherAgent.parse_output (ins 0).content).terminate = true →
       ∀ useXml,
         (WebResearcherAgent.run useXml ins (f + 1)).prediction
           = (WebResearcherAgent.parse_output (ins 0).content).answer
         ∧ (WebResearcherAgent.run useXml ins (f + 1)).termination
           = "terminate with answer") := by
  refine ⟨?_, ?_, ?_⟩
  · intro useXml inp isLast st hle hfc hans hterm
    rw [WebResearcherAgent.roundStep_answer_brk useXml inp isLast st hle hfc hans, hterm]
    rw [if_pos rfl]
  · intro useXml inp isLast st hle hfc hans hterm
    exact WebResearcherAgent.roundStep_terminate_brk useXml inp isLast st hle hfc hans hterm
  · intro ins f htime hle hfcr hans hterm useXml
    unfold WebResearcherAgent.run
    simp only [WebResearcherAgent.runLoop]
    rw [if_neg (by simp [htime])]
    rw [WebResearcherAgent.roundStep_answer_brk useXml (ins 0) (f == 0)
      WebResearcherAgent.initRState hle (Or.inr hfcr) hans, hterm]
    rw [if_pos rfl]
    unfold WebResearcherAgent.finalizeRun
    rw [if_pos hans]
    exact ⟨rfl, rfl⟩

/-- C9 witness: a first round answering 42 with a terminate block: the run
returns 42 with the terminate-with-answer tag. -/
theorem claim_C9_witness :
    (WebResearcherAgent.run true
        (fun _ => ⟨false, none,
          "<report>r</report>\n<answer>42</answer>\n<terminate>done</terminate>",
          [], "", none, "", false, ""⟩) 3).prediction = "42" :=
  ((claim_C9.2.2
      (fun _ => ⟨false, none,
        "<report>r</report>\n<answer>42</answer>\n<terminate>done</terminate>",
        [], "", none, "", false, ""⟩) 2
      (by decide) (by decide) (by decide) (by decide) (by decide) true).1).trans (by decide)

namespace LLMClient

/-- Outcome categories of one LLM API attempt, as distinguished by the
except clauses of call_server: a completed response, a rate-limit error, an
authentication error, an API/connection/timeout error, or any other
exception. -/
inductive AttemptOutcome where
  | success (content : String)
  | rateLimit
  | authError
  | apiError
  | unexpected
deriving DecidableEq

/-- Whether the attempt completed with a response. -/
def AttemptOutcome.isSuccess : AttemptOutcome → Bool
  | .success _ => true
  | _ => false

/-- Whether the attempt failed with an error that the loop retries. -/
def AttemptOutcome.retryable : AttemptOutcome → Bool
  | .rateLimit => true
  | .apiError => true
  | .unexpected => true
  | _ => false

/-- Backoff sleep before the next attempt: base 1 second doubled per
attempt, plus the random.uniform(0,1) jitter, capped at 30 seconds. -/
def backoffSleep (attempt : Nat) (jitter : ℚ) : ℚ :=
  min ((2 : ℚ) ^ attempt + jitter) 30

/-- Result of the retry loop: the stripped content of the first completed
response if any, the sleeps performed between attempts, and the number of
attempts made. -/
structure RetryOut where
  result : Option String
  sleeps : List ℚ
  attempts : Nat

/-- The for-loop of call_server over attempts: a is the current attempt
index, the second argument the remaining attempts.  A completed response
returns immediately; an AuthenticationError breaks without sleeping or
retrying; any other error sleeps (when attempts remain) and retries. -/
def retryGo (outcomes : Nat → AttemptOutcome) (jitter : Nat → ℚ) : Nat → Nat → RetryOut
  | _, 0 => ⟨none, [], 0⟩
  | a, rem + 1 =>
    match outcomes a with
    | .success c => ⟨some (pyStripS c), [], 1⟩
    | .authError => ⟨none, [], 1⟩
    | _ =>
      if 0 < rem then
        let e := retryGo outcomes jitter (a + 1) rem
        ⟨e.result, backoffSleep a (jitter a) :: e.sleeps, e.attempts + 1⟩
      else ⟨none, [], 1⟩

/-- Value returned by call_server: the content field, whether it came from
a response (rather than the sentinel), the sleeps and the attempt count. -/
structure CallOut where
  content : String
  ok : Bool
  sleeps : List ℚ
  attempts : Nat

/-- Embeds call_server of WebResearcherAgent and of BaseWebWeaverAgent (the
two differ only in the sentinel text): run the retry loop from attempt 0;
when no response was obtained, return the sentinel error string in content
instead of raising. -/
def call_server (sentinel : String) (outcomes : Nat → AttemptOutcome) (jitter : Nat → ℚ)
    (maxTries : Nat) : CallOut :=
  match (retryGo outcomes jitter 0 maxTries).result with
  | some c => ⟨c, true, (retryGo outcomes jitter 0 maxTries).sleeps,
               (retryGo outcomes jitter 0 maxTries).attempts⟩
  | none => ⟨sentinel, false, (retryGo outcomes jitter 0 maxTries).sleeps,
             (retryGo outcomes jitter 0 maxTries).attempts⟩

/-- Sentinel of WebResearcherAgent.call_server. -/
def webResearcherSentinel : String := "LLM server error."

/-- Sentinel of BaseWebWeaverAgent.call_server. -/
def webWeaverSentinel : String := "Error: LLM server failed after all retries."

theorem retryGo_sleeps_le (outcomes : Nat → AttemptOutcome) (jitter : Nat → ℚ) :
    ∀ rem a, ∀ s ∈ (retryGo outcomes jitter a rem).sleeps, s ≤ 30 := by
  intro rem
  induction rem with
  | zero => intro a s hs; simp [retryGo] at hs
  | succ r ih =>
    intro a s hs
    simp only [retryGo] at hs
    cases ho : outcomes a with
    | success c => rw [ho] at hs; simp at hs
    | authError => rw [ho] at hs; simp at hs
    | rateLimit =>
      rw [ho] at hs
      by_cases hr : 0 < r
      · rw [if_pos hr] at hs
        simp only [List.mem_cons] at hs
        cases hs with
        | inl h1 => rw [h1]; exact min_le_right _ _
        | inr h2 => exact ih (a + 1) s h2
      · rw [if_neg hr] at hs; simp at hs
    | apiError =>
      rw [ho] at hs
      by_cases hr : 0 < r
      · rw [if_pos hr] at hs
        simp only [List.mem_cons] at hs
        cases hs with
        | inl h1 => rw [h1]; exact min_le_right _ _
        | inr h2 => exact ih (a + 1) s h2
      · rw [if_neg hr] at hs; simp at hs
    | unexpected =>
      rw [ho] at hs
      by_cases hr : 0 < r
      · rw [if_pos hr] at hs
        simp only [List.mem_cons] at hs
        cases hs with
        | inl h1 => rw [h1]; exact min_le_right _ _
        | inr h2 => exact ih (a + 1) s h2
      · rw [if_neg hr] at hs; simp at hs

theorem retryGo_no_success (outcomes : Nat → AttemptOutcome) (jitter : Nat → ℚ)
    (hns : ∀ k, (outcomes k).isSuccess = false) :
    ∀ rem a, (retryGo outcomes jitter a rem).result = none := by
  intro rem
  induction rem with
  | zero => intro a; rfl
  | succ r ih =>
    intro a
    simp only [retryGo]
    cases ho : outcomes a with
    | success c => have := hns a; rw [ho] at this; simp [AttemptOutcome.isSuccess] at this
    | authError => rfl
    | rateLimit =>
      by_cases hr : 0 < r
      · rw [if_pos hr]; exact ih (a + 1)
      · rw [if_neg hr]
    | apiError =>
      by_cases hr : 0 < r
      · rw [if_pos hr]; exact ih (a + 1)
      · rw [if_neg hr]
    | unexpected =>
      by_cases hr : 0 < r
      · rw [if_pos hr]; exact ih (a + 1)
      · rw [if_neg hr]

theorem retryGo_some_success (outcomes : Nat → AttemptOutcome) (jitter : Nat → ℚ) :
    ∀ rem a c, (retryGo outcomes jitter a rem).result = some c →
      ∃ k raw, a ≤ k ∧ k < a + rem ∧ outcomes k = .success raw ∧ c = pyStripS raw := by
  intro rem
  induction rem with
  | zero => intro a c h; simp [retryGo] at h
  | succ r ih =>
    intro a c h
    simp only [retryGo] at h
    cases ho : outcomes a with
    | success raw =>
      rw [ho] at h
      simp at h
      exact ⟨a, raw, le_refl a, by omega, ho, h.symm⟩
    | authError => rw [ho] at h; simp at h
    | rateLimit =>
      rw [ho] at h
      by_cases hr : 0 < r
      · rw [if_pos hr] at h
        obtain ⟨k, raw, h1, h2, h3, h4⟩ := ih (a + 1) c h
        exact ⟨k, raw, by omega, by omega, h3, h4⟩
      · rw [if_neg hr] at h; simp at h
    | apiError =>
      rw [ho] at h
      by_cases hr : 0 < r
      · rw [if_pos hr] at h
        obtain ⟨k, raw, h1, h2, h3, h4⟩ := ih (a + 1) c h
        exact ⟨k, raw, by omega, by omega, h3, h4⟩
      · rw [if_neg hr] at h; simp at h
    | unexpected =>
      rw [ho] at h
      by_cases hr : 0 < r
      · rw [if_pos hr] at h
        obtain ⟨k, raw, h1, h2, h3, h4⟩ := ih (a + 1) c h
        exact ⟨k, raw, by omega, by omega, h3, h4⟩
      · rw [if_neg hr] at h; simp at h

theorem retryGo_auth (outcomes : Nat → AttemptOutcome) (jitter : Nat → ℚ) :
    ∀ k a rem, (∀ j, j < k → (outcomes (a + j)).retryable = true) →
      outcomes (a + k) = .authError → k < rem →
      (retryGo outcomes jitter a rem).result = none
      ∧ (retryGo outcomes jitter a rem).attempts = k + 1 := by
  intro k
  induction k with
  | zero =>
    intro a rem hpre hauth hlt
    cases rem with
    | zero => omega
    | succ r =>
      simp only [retryGo]
      rw [Nat.add_zero] at hauth
      rw [hauth]
      exact ⟨rfl, rfl⟩
  | succ n ih =>
    intro a rem hpre hauth hlt
    cases rem with
    | zero => omega
    | succ r =>
      have h0 : (outcomes a).retryable = true := by
        have := hpre 0 (by omega)
        rwa [Nat.add_zero] at this
      have hr : 0 < r := by omega
      have hnext := ih (a + 1) r
        (fun j hj => by
          have := hpre (j + 1) (by omega)
          rwa [show a + (j + 1) = a + 1 + j by omega] at this)
        (by rwa [show a + 1 + n = a + (n + 1) by omega])
        (by omega)
      simp only [retryGo]
      cases ho : outcomes a with
      | success c => rw [ho] at h0; simp [AttemptOutcome.retryable] at h0
      | authError => rw [ho] at h0; simp [AttemptOutcome.retryable] at h0
      | rateLimit =>
        rw [if_pos hr]
        exact ⟨hnext.1, by rw [hnext.2]⟩
      | apiError =>
        rw [if_pos hr]
        exact ⟨hnext.1, by rw [hnext.2]⟩
      | unexpected =>
        rw [if_pos hr]
        exact ⟨hnext.1, by rw [hnext.2]⟩

end LLMClient

/-- C6: call_server never raises to its caller: it always returns a value
whose content is either the stripped content of a completed attempt or the
sentinel error string; every backoff sleep is at most 30 seconds; an
authentication error ends the attempts immediately (the attempt count stops
at the failing attempt, with no retry); and on exhaustion the sentinel is
returned in the content field.  The WebResearcher and WebWeaver variants
differ only in the sentinel text, quantified here. -/
theorem claim_C6 :
    (∀ (sentinel : String) (outcomes : Nat → LLMClient.AttemptOutcome)
        (jitter : Nat → ℚ) (maxTries : Nat),
       ((LLMClient.call_server sentinel outcomes jitter maxTries).content = sentinel
         ∧ (LLMClient.call_server sentinel outcomes jitter maxTries).ok = false)
       ∨ (∃ k raw, k < maxTries ∧ outcomes k = .success raw
           ∧ (LLMClient.call_server sentinel outcomes jitter maxTries).content = pyStripS raw
           ∧ (LLMClient.call_server sentinel outcomes jitter maxTries).ok = true))
  ∧ (∀ (sentinel : String) (outcomes : Nat → LLMClient.AttemptOutcome)
        (jitter : Nat → ℚ) (maxTries : Nat),
       ∀ s ∈ (LLMClient.call_server sentinel outcomes jitter maxTries).sleeps, s ≤ 30)
  ∧ (∀ (sentinel : String) (outcomes : Nat → LLMClient.AttemptOutcome)
        (jitter : Nat → ℚ) (maxTries : Nat),
       (∀ k, (outcomes k).isSuccess = false) →
       (LLMClient.call_server sentinel outcomes jitter maxTries).content = sentinel
       ∧ (LLMClient.call_server sentinel outcomes jitter maxTries).ok = false)
  ∧ (∀ (sentinel : String) (outcomes : Nat → LLMClient.AttemptOutcome)
        (jitter : Nat → ℚ) (maxTries : Nat) (k : Nat),
       (∀ j, j < k → (outcomes j).retryable = true) →
       outcomes k = .authError → k < maxTries →
       (LLMClient.call_server sentinel outcomes jitter maxTries).attempts = k + 1
       ∧ (LLMClient.call_server sentinel outcomes jitter maxTries).content = sentinel) := by
  refine ⟨?_, ?_, ?_, ?_⟩
  · intro sentinel outcomes jitter maxTries
    unfold LLMClient.call_server
    cases hres : (LLMClient.retryGo outcomes jitter 0 maxTries).result with
    | none => exact Or.inl ⟨rfl, rfl⟩
    | some c =>
      obtain ⟨k, raw, hk1, hk2, hk3, hk4⟩ :=
        LLMClient.retryGo_some_success outcomes jitter maxTries 0 c hres
      exact Or.inr ⟨k, raw, by omega, hk3, by rw [hk4], rfl⟩
  · intro sentinel outcomes jitter maxTries s hs
    unfold LLMClient.call_server at hs
    cases hres : (LLMClient.retryGo outcomes jitter 0 maxTries).result with
    | none =>
      rw [hres] at hs
      exact LLMClient.retryGo_sleeps_le outcomes jitter maxTries 0 s hs
    | some c =>
      rw [hres] at hs
      exact LLMClient.retryGo_sleeps_le outcomes jitter maxTries 0 s hs
  · intro sentinel outcomes jitter maxTries hns
    have hn := LLMClient.retryGo_no_success outcomes jitter hns maxTries 0
    unfold LLMClient.call_server
    rw [hn]  -- hmm: rewriting the match scrutinee
    exact ⟨rfl, rfl⟩
  · intro sentinel outcomes jitter maxTries k hpre hauth hlt
    have h := LLMClient.retryGo_auth outcomes jitter k 0 maxTries
      (fun j hj => by have := hpre j hj; rwa [Nat.zero_add]) (by rwa [Nat.zero_add]) hlt
    unfold LLMClient.call_server
    rw [h.1]
    exact ⟨h.2, rfl⟩

/-- C6 witness: a rate-limited first attempt followed by an authentication
error: two attempts total and the WebResearcher sentinel in content. -/
theorem claim_C6_witness :
    (LLMClient.call_server LLMClient.webResearcherSentinel
        (fun k => if k = 0 then .rateLimit else .authError) (fun _ => (1 : ℚ) / 2) 3).attempts
      = 2
    ∧ (LLMClient.call_server LLMClient.webResearcherSentinel
        (fun k => if k = 0 then .rateLimit else .authError) (fun _ => (1 : ℚ) / 2) 3).content
      = LLMClient.webResearcherSentinel :=
  claim_C6.2.2.2 LLMClient.webResearcherSentinel
    (fun k => if k = 0 then .rateLimit else .authError) (fun _ => (1 : ℚ) / 2) 3 1
    (by
      intro j hj
      have hj0 : j = 0 := by omega
      subst hj0
      decide)
    (by decide) (by omega)

namespace WebWeaverWriter

/-- Loop state of WebWeaverWriter.run, plus two ghost fields recording the
actual tool executions (their count and the retrieve keys executed), used
to state that deduplication prevents repeated executions. -/
structure WState where
  report_written_so_far : String
  last_observation : String
  seen_retrieve_keys : List String
  retrieve_repeat_counts : List (String × Nat)
  retrieve_results_cache : List (String × String)
  steps_since_last_write : Nat
  execCount : Nat
  execKeys : List String
deriving DecidableEq

/-- State at the top of WebWeaverWriter.run. -/
def initWState : WState :=
  { report_written_so_far := ""
    last_observation := "No observation yet. Start by retrieving evidence for the first section."
    seen_retrieve_keys := []
    retrieve_repeat_counts := []
    retrieve_results_cache := []
    steps_since_last_write := 0
    execCount := 0
    execKeys := [] }

/-- MAX_IDLE_BEFORE_FORCE_WRITE_HINT. -/
def maxIdleBeforeForceWriteHint : Nat := 6

/-- Hint appended to the observation after too many non-write steps. -/
def forceWriteHint : String :=
  "\nInstruction: You have gathered sufficient evidence. You MUST output <write> with a well-structured section now."

/-- End-of-round hint check of the Writer loop (skipped by the duplicate
retrieve branch, which continues early). -/
def applyIdleHint (st : WState) : WState :=
  if st.steps_since_last_write ≥ maxIdleBeforeForceWriteHint then
    { st with last_observation := st.last_observation ++ forceWriteHint }
  else st

/-- Outcome of one Writer round: continue with a new state, or return the
report written so far. -/
inductive WStepOut where
  | cont (st : WState)
  | done (report : String)
deriving DecidableEq

/-- One round of the XML-protocol Writer loop after the LLM call, driven by
parse_output on the response content.  jsonParse is the (deterministic)
json5 name extraction plus canonical json.dumps key of the tool-call
payload; execTool gives the dispatcher result of the n-th actual tool
invocation of this run. -/
def writerStep (jsonParse : String → Option String × Option String)
    (execTool : Nat → String) (st : WState) (content : String) : WStepOut :=
  let parsed := parse_output content
  if parsed.action_type = "terminate" then
    .done st.report_written_so_far
  else if parsed.action_type = "write" then
    .cont (applyIdleHint
      { st with
        report_written_so_far := st.report_written_so_far ++ "\n\n" ++ parsed.action_content
        last_observation := "Section written successfully:\n" ++ parsed.action_content ++ "\n"
        steps_since_last_write := 0 })
  else if parsed.action_type = "tool_call" then
    let np := jsonParse parsed.action_content
    if np.1 = some "retrieve" then
      match np.2 with
      | some k =>
        if k ∈ st.seen_retrieve_keys then
          .cont
            { st with
              retrieve_repeat_counts :=
                (k, ((st.retrieve_repeat_counts.lookup k).getD 1) + 1)
                  :: st.retrieve_repeat_counts
              last_observation :=
                "Evidence already retrieved:\n\n"
                  ++ ((st.retrieve_results_cache.lookup k).getD "")
                  ++ "\n\nYou MUST now proceed to <write> the section."
              steps_since_last_write := st.steps_since_last_write + 1 }
        else
          .cont (applyIdleHint
            { st with
              seen_retrieve_keys := k :: st.seen_retrieve_keys
              last_observation := execTool st.execCount
              retrieve_results_cache :=
                (k, execTool st.execCount) :: st.retrieve_results_cache
              steps_since_last_write := st.steps_since_last_write + 1
              execCount := st.execCount + 1
              execKeys := k :: st.execKeys })
      | none =>
        .cont (applyIdleHint
          { st with
            last_observation := execTool st.execCount
            steps_since_last_write := st.steps_since_last_write + 1
            execCount := st.execCount + 1 })
    else
      .cont (applyIdleHint
        { st with
          last_observation := execTool st.execCount
          steps_since_last_write := st.steps_since_last_write + 1
          execCount := st.execCount + 1 })
  else
    .cont (applyIdleHint
      { st with
        last_observation := parsed.action_content
        steps_since_last_write := st.steps_since_last_write + 1 })

/-- The for-loop of WebWeaverWriter.run: at most MAX_LLM_CALL_PER_RUN
rounds, returning the report on terminate or on budget exhaustion, together
with the final loop state. -/
def runWriter (contents : Nat → String)
    (jsonParse : String → Option String × Option String)
    (execTool : Nat → String) : Nat → Nat → WState → String × WState
  | 0, _, st => (st.report_written_so_far, st)
  | fuel + 1, i, st =>
    match writerStep jsonParse execTool st (contents i) with
    | .done rep => (rep, st)
    | .cont st1 => runWriter contents jsonParse execTool fuel (i + 1) st1

/-- Invariant tying the ghost execution log to the deduplication state:
every executed retrieve key is tracked as seen, no key was executed twice,
and every seen key has a cached value that is the result of an actual tool
execution. -/
def WInv (execTool : Nat → String) (st : WState) : Prop :=
  (∀ x ∈ st.execKeys, x ∈ st.seen_retrieve_keys)
  ∧ st.execKeys.Nodup
  ∧ ∀ k ∈ st.seen_retrieve_keys, ∃ i, i < st.execCount
      ∧ st.retrieve_results_cache.lookup k = some (execTool i)

end WebWeaverWriter

namespace WebWeaverWriter

theorem applyIdleHint_seen (st : WState) :
    (applyIdleHint st).seen_retrieve_keys = st.seen_retrieve_keys := by
  unfold applyIdleHint
  split <;> rfl

theorem applyIdleHint_cache (st : WState) :
    (applyIdleHint st).retrieve_results_cache = st.retrieve_results_cache := by
  unfold applyIdleHint
  split <;> rfl

theorem applyIdleHint_execCount (st : WState) : (applyIdleHint st).execCount = st.execCount := by
  unfold applyIdleHint
  split <;> rfl

theorem applyIdleHint_execKeys (st : WState) : (applyIdleHint st).execKeys = st.execKeys := by
  unfold applyIdleHint
  split <;> rfl

theorem WInv_same_dedup (execTool : Nat → String) (st st' : WState)
    (hseen : st'.seen_retrieve_keys = st.seen_retrieve_keys)
    (hcache : st'.retrieve_results_cache = st.retrieve_results_cache)
    (hcnt : st.execCount ≤ st'.execCount)
    (hkeys : st'.execKeys = st.execKeys)
    (h : WInv execTool st) : WInv execTool st' := by
  obtain ⟨h1, h2, h3⟩ := h
  refine ⟨?_, ?_, ?_⟩
  · rw [hkeys, hseen]
    exact h1
  · rw [hkeys]
    exact h2
  · rw [hseen, hcache]
    intro k hk
    obtain ⟨i, hi, hc⟩ := h3 k hk
    exact ⟨i, by omega, hc⟩

theorem WInv_applyIdleHint (execTool : Nat → String) (st : WState)
    (h : WInv execTool st) : WInv execTool (applyIdleHint st) :=
  WInv_same_dedup execTool st (applyIdleHint st) (applyIdleHint_seen st) (applyIdleHint_cache st)
    (le_of_eq (applyIdleHint_execCount st).symm) (applyIdleHint_execKeys st) h

theorem WInv_fresh (execTool : Nat → String) (st : WState) (k : String)
    (hnot : k ∉ st.seen_retrieve_keys) (h : WInv execTool st) :
    WInv execTool
      { st with
        seen_retrieve_keys := k :: st.seen_retrieve_keys
        last_observation := execTool st.execCount
        retrieve_results_cache := (k, execTool st.execCount) :: st.retrieve_results_cache
        steps_since_last_write := st.steps_since_last_write + 1
        execCount := st.execCount + 1
        execKeys := k :: st.execKeys } := by
  obtain ⟨h1, h2, h3⟩ := h
  refine ⟨?_, ?_, ?_⟩
  · intro x hx
    simp only [List.mem_cons] at hx ⊢
    cases hx with
    | inl he => exact Or.inl he
    | inr hm => exact Or.inr (h1 x hm)
  · rw [List.nodup_cons]
    exact ⟨fun hmem => hnot (h1 k hmem), h2⟩
  · intro k' hk'
    simp only [List.mem_cons] at hk'
    cases hk' with
    | inl he =>
      subst he
      refine ⟨st.execCount, by show st.execCount < st.execCount + 1; omega, ?_⟩
      simp [List.lookup]
    | inr hm =>
      have hne : k' ≠ k := fun he => hnot (he ▸ hm)
      obtain ⟨i, hi, hc⟩ := h3 k' hm
      refine ⟨i, by show i < st.execCount + 1; omega, ?_⟩
      show List.lookup k' ((k, execTool st.execCount) :: st.retrieve_results_cache)
          = some (execTool i)
      simp only [List.lookup, beq_eq_false_iff_ne.mpr hne]
      exact hc

theorem writerStep_WInv_cont (jsonParse : String → Option String × Option String)
    (execTool : Nat → String) (st : WState) (content : String) (st1 : WState)
    (hinv : WInv execTool st)
    (h : writerStep jsonParse execTool st content = .cont st1) : WInv execTool st1 := by
  simp only [writerStep] at h
  split at h
  · simp at h
  · split at h
    · injection h with h1
      subst h1
      exact WInv_applyIdleHint execTool _ (WInv_same_dedup execTool st _ rfl rfl (le_refl _) rfl hinv)
    · split at h
      · split at h
        · split at h
          · split at h
            · injection h with h1
              subst h1
              exact WInv_same_dedup execTool st _ rfl rfl (le_refl _) rfl hinv
            · injection h with h1
              subst h1
              rename_i hk
              exact WInv_applyIdleHint execTool _ (WInv_fresh execTool st _ hk hinv)
          · injection h with h1
            subst h1
            exact WInv_applyIdleHint execTool _
              (WInv_same_dedup execTool st _ rfl rfl (Nat.le_succ _) rfl hinv)
        · injection h with h1
          subst h1
          exact WInv_applyIdleHint execTool _
            (WInv_same_dedup execTool st _ rfl rfl (Nat.le_succ _) rfl hinv)
      · injection h with h1
        subst h1
        exact WInv_applyIdleHint execTool _
          (WInv_same_dedup execTool st _ rfl rfl (le_refl _) rfl hinv)

theorem runWriter_WInv (contents : Nat → String)
    (jsonParse : String → Option String × Option String) (execTool : Nat → String) :
    ∀ fuel i st, WInv execTool st →
      WInv execTool (runWriter contents jsonParse execTool fuel i st).2 := by
  intro fuel
  induction fuel with
  | zero => intro i st h; exact h
  | succ f ih =>
    intro i st h
    simp only [runWriter]
    cases hs : writerStep jsonParse execTool st (contents i) with
    | done rep => exact h
    | cont st1 => exact ih (i + 1) st1 (writerStep_WInv_cont _ _ _ _ _ h hs)

theorem initWState_WInv (execTool : Nat → String) : WInv execTool initWState := by
  refine ⟨?_, ?_, ?_⟩
  · intro x hx
    simp [initWState] at hx
  · simp [initWState]
  · intro k hk
    simp [initWState] at hk

end WebWeaverWriter

/-- C7: a retrieve tool call whose canonical argument key was already seen
in the same Writer run does not execute the tool again: the execution count
and execution log are unchanged, the repeat counter for the key is bumped,
and the observation becomes the cached evidence of the earlier actual
execution followed by the explicit directive to proceed to write.
Moreover, across a whole run no retrieve key is ever executed twice. -/
theorem claim_C7 :
    (∀ (jsonParse : String → Option String × Option String) (execTool : Nat → String)
        (st : WebWeaverWriter.WState) (content : String) (k : String),
       WebWeaverWriter.WInv execTool st →
       (WebWeaverWriter.parse_output content).action_type = "tool_call" →
       jsonParse (WebWeaverWriter.parse_output content).action_content
         = (some "retrieve", some k) →
       k ∈ st.seen_retrieve_keys →
       ∃ i, i < st.execCount
         ∧ st.retrieve_results_cache.lookup k = some (execTool i)
         ∧ WebWeaverWriter.writerStep jsonParse execTool st content
             = .cont { st with
                 retrieve_repeat_counts :=
                   (k, ((st.retrieve_repeat_counts.lookup k).getD 1) + 1)
                     :: st.retrieve_repeat_counts
                 last_observation :=
                   "Evidence already retrieved:\n\n" ++ execTool i
                     ++ "\n\nYou MUST now proceed to <write> the section."
                 steps_since_last_write := st.steps_since_last_write + 1 })
  ∧ (∀ (contents : Nat → String) (jsonParse : String → Option String × Option String)
        (execTool : Nat → String) (fuel i : Nat) (st : WebWeaverWriter.WState),
       WebWeaverWriter.WInv execTool st →
       WebWeaverWriter.WInv execTool
         (WebWeaverWriter.runWriter contents jsonParse execTool fuel i st).2)
  ∧ (∀ (contents : Nat → String) (jsonParse : String → Option String × Option String)
        (execTool : Nat → String) (fuel : Nat),
       (WebWeaverWriter.runWriter contents jsonParse execTool fuel 0
         WebWeaverWriter.initWState).2.execKeys.Nodup) := by
  refine ⟨?_, ?_, ?_⟩
  · intro jsonParse execTool st content k hinv htype hjson hk
    obtain ⟨i, hi, hc⟩ := hinv.2.2 k hk
    refine ⟨i, hi, hc, ?_⟩
    simp only [WebWeaverWriter.writerStep, htype, hjson]
    rw [if_pos trivial, if_pos trivial, if_pos hk, hc]
    rfl
  · intro contents jsonParse execTool fuel i st hinv
    exact WebWeaverWriter.runWriter_WInv contents jsonParse execTool fuel i st hinv
  · intro contents jsonParse execTool fuel
    exact (WebWeaverWriter.runWriter_WInv contents jsonParse execTool fuel 0
      WebWeaverWriter.initWState (WebWeaverWriter.initWState_WInv execTool)).2.1

/-- C7 witness: a second identical retrieve for key K with one prior
execution cached as EV: the step keeps the execution count at one and
produces the cached-evidence observation with the write directive. -/
theorem claim_C7_witness :
    WebWeaverWriter.writerStep (fun _ => (some "retrieve", some "K")) (fun _ => "EV")
        ⟨"", "obs", ["K"], [], [("K", "EV")], 1, 1, ["K"]⟩
        "<tool_call>x</tool_call>"
      = .cont ⟨"",
          "Evidence already retrieved:\n\nEV\n\nYou MUST now proceed to <write> the section.",
          ["K"], [("K", 2)], [("K", "EV")], 2, 1, ["K"]⟩ := by
  obtain ⟨i, hi, hc, hstep⟩ := claim_C7.1 (fun _ => (some "retrieve", some "K"))
    (fun _ => "EV") ⟨"", "obs", ["K"], [], [("K", "EV")], 1, 1, ["K"]⟩
    "<tool_call>x</tool_call>" "K"
    ⟨by decide, by decide, by
      intro k hk
      refine ⟨0, by decide, ?_⟩
      simp at hk
      subst hk
      decide⟩
    (by decide) rfl (by decide)
  rw [hstep]
  rfl

namespace ToolDispatch

/-- Embeds WebResearcherAgent._execute_xml_tool.  The code-tag branch, the
json5 parse, the python special case and the tool invocation are external:
pythonResult is the python interpreter outcome for an inline code block,
parse the json5 outcome (error text or name and arguments), execResult the
tool invocation outcome (ok result or exception text).  Every exception is
caught by the single try and converted to the failure string; nothing is
raised to the loop. -/
def executeXmlToolWR (toolNames : List String) (raw : String)
    (pythonResult : Except String String)
    (parse : Except String (String × String))
    (execResult : Except String String) : String :=
  if occursSub "<code>".data raw.data ∧ occursSub "</code>".data raw.data then
    match pythonResult with
    | .ok r => r
    | .error e => "Error: Tool call failed. Input: " ++ raw ++ ". Error: " ++ e
  else
    match parse with
    | .error e => "Error: Tool call failed. Input: " ++ raw ++ ". Error: " ++ e
    | .ok (name, _) =>
      if name ∈ toolNames then
        match execResult with
        | .ok r => r
        | .error e => "Error: Tool call failed. Input: " ++ raw ++ ". Error: " ++ e
      else "Error: Tool " ++ name ++ " not found"

/-- Embeds WebResearcherAgent._execute_function_call: the name is checked
against the tool map before the arguments are decoded; a decode failure and
a tool exception are converted to error strings, never raised. -/
def executeFunctionCallWR (toolNames : List String) (funcName argsStr : String)
    (argsDecode : Except String Unit)
    (execResult : Except String String) : String :=
  if funcName ∈ toolNames then
    match argsDecode with
    | .error _ => "Error: Failed to decode arguments: " ++ argsStr
    | .ok _ =>
      match execResult with
      | .ok r => r
      | .error e => "Error: Tool execution failed. " ++ e
  else "Error: Tool " ++ funcName ++ " not found"

/-- Embeds BaseWebWeaverAgent._execute_function_call, which handles the
unknown-tool and decode-failure branches with the same strings as the
WebResearcher variant (the cache lookup and store of cacheable tools are
inside the found branch and folded into execResult). -/
def executeFunctionCallWW (toolNames : List String) (funcName argsStr : String)
    (argsDecode : Except String Unit)
    (execResult : Except String String) : String :=
  if funcName ∈ toolNames then
    match argsDecode with
    | .error _ => "Error: Failed to decode arguments: " ++ argsStr
    | .ok _ =>
      match execResult with
      | .ok r => r
      | .error e => "Error: Tool execution failed. " ++ e
  else "Error: Tool " ++ funcName ++ " not found"

/-- Embeds BaseWebWeaverAgent._execute_xml_tool: json5 get of the name may
yield None (modelled as Option), and the unknown-tool branch interpolates
the name into a DIFFERENT, longer message than the other three dispatchers;
exceptions are converted to the failure string. -/
def executeXmlToolWW (toolNames : List String) (raw : String)
    (parse : Except String (Option String × String))
    (execResult : Except String String) : String :=
  match parse with
  | .error e => "Error: Tool call failed. Input: " ++ raw ++ ". Error: " ++ e
  | .ok (nameOpt, _) =>
    match nameOpt with
    | none => "Error: Tool \x27None\x27 not found in agent\x27s tool map."
    | some n =>
      if n ∈ toolNames then
        match execResult with
        | .ok r => r
        | .error e => "Error: Tool call failed. Input: " ++ raw ++ ". Error: " ++ e
      else
        "Error: Tool \x27" ++ n ++ "\x27 not found in agent\x27s tool map."

end ToolDispatch

/-- C8 counterexample: the WebWeaver XML dispatcher answers an unknown tool
name with its own longer message, not the claimed exact string. -/
theorem claim_C8_counterexample :
    ToolDispatch.executeXmlToolWW ["retrieve"] "raw" (.ok (some "draw", "a")) (.ok "r")
      ≠ "Error: Tool draw not found" := by decide

/-- C8 (amended): an unknown tool name is answered with an error string and
never an exception: the WebResearcher XML dispatcher, and both
function-calling dispatchers, return exactly the claimed string, while the
WebWeaver XML dispatcher returns its longer quoted variant; found tools
whose execution fails are likewise converted to error strings. -/
theorem claim_C8 :
    (∀ (toolNames : List String) (raw : String) (pythonResult : Except String String)
        (execResult : Except String String) (name args : String),
       name ∉ toolNames →
       ¬(occursSub "<code>".data raw.data ∧ occursSub "</code>".data raw.data) →
       ToolDispatch.executeXmlToolWR toolNames raw pythonResult (.ok (name, args)) execResult
         = "Error: Tool " ++ name ++ " not found")
  ∧ (∀ (toolNames : List String) (funcName argsStr : String)
        (argsDecode : Except String Unit) (execResult : Except String String),
       funcName ∉ toolNames →
       ToolDispatch.executeFunctionCallWR toolNames funcName argsStr argsDecode execResult
         = "Error: Tool " ++ funcName ++ " not found")
  ∧ (∀ (toolNames : List String) (funcName argsStr : String)
        (argsDecode : Except String Unit) (execResult : Except String String),
       funcName ∉ toolNames →
       ToolDispatch.executeFunctionCallWW toolNames funcName argsStr argsDecode execResult
         = "Error: Tool " ++ funcName ++ " not found")
  ∧ (∀ (toolNames : List String) (raw : String) (args : String)
        (execResult : Except String String) (name : String),
       name ∉ toolNames →
       ToolDispatch.executeXmlToolWW toolNames raw (.ok (some name, args)) execResult
         = "Error: Tool \x27" ++ name ++ "\x27 not found in agent\x27s tool map.")
  ∧ (∀ (toolNames : List String) (funcName argsStr e : String),
       funcName ∈ toolNames →
       ToolDispatch.executeFunctionCallWR toolNames funcName argsStr (.ok ()) (.error e)
         = "Error: Tool execution failed. " ++ e) := by
  refine ⟨?_, ?_, ?_, ?_, ?_⟩
  · intro toolNames raw pythonResult execResult name args hname hcode
    simp only [ToolDispatch.executeXmlToolWR]
    rw [if_neg hcode]
    simp [hname]
  · intro toolNames funcName argsStr argsDecode execResult hname
    unfold ToolDispatch.executeFunctionCallWR
    rw [if_neg hname]
  · intro toolNames funcName argsStr argsDecode execResult hname
    unfold ToolDispatch.executeFunctionCallWW
    rw [if_neg hname]
  · intro toolNames raw args execResult name hname
    simp only [ToolDispatch.executeXmlToolWW]
    simp [hname]
  · intro toolNames funcName argsStr e hname
    unfold ToolDispatch.executeFunctionCallWR
    rw [if_pos hname]

/-- C8 witness: the dispatchers applied at a tool name that is not in the
registered map. -/
theorem claim_C8_witness :
    ToolDispatch.executeFunctionCallWR ["search", "python"] "draw" "{}" (.ok ()) (.ok "r")
      = "Error: Tool draw not found"
    ∧ ToolDispatch.executeXmlToolWW ["retrieve"] "raw" (.ok (some "draw", "a")) (.ok "r")
      = "Error: Tool \x27draw\x27 not found in agent\x27s tool map." :=
  ⟨claim_C8.2.1 ["search", "python"] "draw" "{}" (.ok ()) (.ok "r") (by decide),
   claim_C8.2.2.2.1 ["retrieve"] "raw" "a" (.ok "r") "draw" (by decide)⟩

namespace TestTimeScalingAgent

/-- One parallel research result consumed by run_synthesis. -/
structure SynthRecord where
  prediction : String
  report : String
  termination : String
deriving DecidableEq

/-- The value returned by WebResearcherAgent.call_server: a response record
(a dict in the source) whose text lives in the content field.  It is not a
string and has no strip method. -/
structure CallServerReturn where
  content : String
deriving DecidableEq

/-- Result bundle of run_synthesis on its only non-raising path. -/
structure SynthResult where
  final_answer : String
  synthesis_reports : List (Nat × String × String × String)
deriving DecidableEq

/-- Temperature installed by run_synthesis into the synthesis agent config:
the base config is copied and its generate_cfg temperature is overwritten
with 0.2 whatever it was. -/
def synthesisTemperature (baseTemperature : Option ℚ) : ℚ :=
  match baseTemperature with
  | _ => 0.2

/-- Embeds TestTimeScalingAgent.run_synthesis.  With no parallel results it
returns the fixed no-data answer and an empty report list.  With at least
one result it builds the synthesis prompt, calls call_server - which
returns the response record modelled by CallServerReturn - and then
evaluates final_answer_raw.strip().  A dict has no strip attribute, so this
path raises AttributeError instead of returning the text content; the
raising path is modelled as the error case. -/
def run_synthesis (question : String) (parallel_results : List SynthRecord)
    (llmResponse : CallServerReturn) : Except String SynthResult :=
  if parallel_results.isEmpty then
    .ok { final_answer := "Synthesis failed: No research data available."
          synthesis_reports := [] }
  else
    .error "AttributeError: \x27dict\x27 object has no attribute \x27strip\x27"

end TestTimeScalingAgent

/-- C4: the empty-input branch returns the fixed no-data answer with an
empty synthesis_reports list, and the synthesis temperature is pinned at
0.2; but on every non-empty input the code raises AttributeError instead of
returning the text of the LLM response, because call_server returns a
response dict and run_synthesis calls .strip() on that dict. -/
theorem claim_C4 :
    TestTimeScalingAgent.run_synthesis "q" [] ⟨"the synthesized answer"⟩
      = .ok ⟨"Synthesis failed: No research data available.", []⟩
    ∧ TestTimeScalingAgent.run_synthesis "q"
        [⟨"Paris", "Paris is the capital.", "answer found"⟩] ⟨"the synthesized answer"⟩
      = .error "AttributeError: \x27dict\x27 object has no attribute \x27strip\x27"
    ∧ (∀ base : Option ℚ, TestTimeScalingAgent.synthesisTemperature base = 0.2) := by
  refine ⟨rfl, rfl, ?_⟩
  intro base
  rfl

namespace SessionManagerModel

/-- A conversation turn of the web UI session layer. -/
structure ConversationTurn where
  question : String
  answer : String
  status : String
deriving DecidableEq

/-- Session state: the ordered turns and the index of the current turn. -/
structure SessionState where
  turns : List ConversationTurn
  currentTurn : Option Nat
deriving DecidableEq

/-- A freshly created session. -/
def newSession : SessionState :=
  { turns := [], currentTurn := none }

/-- SessionState.add_turn: unconditionally appends a new turn with status
running and repoints the current turn; there is no check that the previous
current turn has finished, neither here nor in routes.submit_question. -/
def add_turn (s : SessionState) (question : String) : SessionState :=
  { turns := s.turns ++ [{ question := question, answer := "", status := "running" }]
    currentTurn := some s.turns.length }

/-- In-place update of the i-th turn. -/
def modifyAt (f : ConversationTurn → ConversationTurn) :
    Nat → List ConversationTurn → List ConversationTurn
  | _, [] => []
  | 0, t :: ts => f t :: ts
  | n + 1, t :: ts => t :: modifyAt f n ts

/-- SessionState.finish_turn: sets answer and final status on the CURRENT
turn only; any earlier turn still in status running is left untouched. -/
def finish_turn (s : SessionState) (answer : String) (isError : Bool) : SessionState :=
  match s.currentTurn with
  | none => s
  | some i =>
    let upd := fun t : ConversationTurn =>
      { t with answer := answer, status := if isError then "failed" else "completed" }
    { s with turns := modifyAt upd i s.turns }

/-- Externally triggered session operations: submit (POST /api/research,
which schedules _run_research and thus add_turn) and the completion call at
the end of a research task. -/
inductive SessionOp where
  | submit (question : String)
  | finish (answer : String) (isError : Bool)
deriving DecidableEq

def applyOp (s : SessionState) : SessionOp → SessionState
  | .submit q => add_turn s q
  | .finish a e => finish_turn s a e

def applyOps (s : SessionState) (ops : List SessionOp) : SessionState :=
  ops.foldl applyOp s

/-- Number of turns of the session currently in status running. -/
def runningCount (s : SessionState) : Nat :=
  (s.turns.filter (fun t => t.status == "running")).length

end SessionManagerModel

/-- C5: the code does not enforce at-most-one running turn.  Submitting a
second question while the first turn is still running yields two turns in
status running (add_turn always adds a running turn, whatever the current
state), and the subsequent finish_turn completes only the newest turn, so
the first stays running forever. -/
theorem claim_C5 :
    SessionManagerModel.runningCount
        (SessionManagerModel.applyOps SessionManagerModel.newSession
          [.submit "q1", .submit "q2"]) = 2
    ∧ (∀ (s : SessionManagerModel.SessionState) (q : String),
        SessionManagerModel.runningCount (SessionManagerModel.add_turn s q)
          = SessionManagerModel.runningCount s + 1)
    ∧ (SessionManagerModel.applyOps SessionManagerModel.newSession
          [.submit "q1", .submit "q2", .finish "a" false]).turns.map (·.status)
        = ["running", "completed"] := by
  refine ⟨by decide, ?_, by decide⟩
  intro s q
  unfold SessionManagerModel.runningCount SessionManagerModel.add_turn
  simp [List.filter_append]
